import Mathlib

/-!
# Portfolio backend: request handlers over a relational store

A shallow embedding of the Express handlers in `src/routes/*.js` and of the schema
in `src/config/database.js`.

* A request value (`req.body.x`, `req.query.x`) is a `JVal`; an object is the list of its
  fields, and a field that is absent reads as `undefined`.
* The store is the four tables of `init`, each a list of rows in insertion order, together
  with the last value handed out by each `SERIAL` sequence.
* A SQL statement is a function on the store. A statement that PostgreSQL rejects (a
  parameter that is not of the column's type, `NOT NULL`, `VARCHAR(n)`, `CHECK`, `UNIQUE`,
  primary and foreign keys) throws; every handler catches and answers 500.
* `CURRENT_TIMESTAMP` is the argument `now` of a handler.
* `bcrypt.compare` and `jwt.sign` are library code and are parameters of `login`;
  `bcrypt.hash` is a parameter of `init` and `resetAdminUser`, and `process.env` is their
  argument `env`.
* Handlers are modelled after `authenticateToken` and `requireAdmin` have let the
  request through.

Scope of the value model: numbers are safe integers, arrays hold strings, strings are
sequences of Unicode scalar values. PostgreSQL reads integers and booleans from their
text in its decimal and keyword syntax and refuses a text that holds U+0000.
-/

namespace Portfolio

/-! ## JavaScript values -/

/-- A value read from a request: a JSON scalar, an array of strings, or `undefined`.
A number is an integer in the range where JavaScript numbers are exact
(`Number.isSafeInteger`), which is also where `toString` prints plain digits. -/
inductive JVal where
  | undefined
  | null
  | bool (b : Bool)
  | num (n : Int) (safe : n.natAbs < 2 ^ 53)
  | str (s : String)
  | arr (xs : List String)
  deriving DecidableEq

/-- An object (`req.body`, `req.query`) as the list of its fields. -/
abbrev JObj := List (String × JVal)

/-- Reading `obj.k`: the destructuring `const { k } = obj`. -/
def JObj.field (o : JObj) (k : String) : JVal :=
  match o.lookup k with
  | some v => v
  | none => JVal.undefined

/-- JavaScript `ToBoolean`: what `!v` and `if (v)` test. -/
def truthy : JVal → Bool
  | .undefined => false
  | .null => false
  | .bool b => b
  | .num n _ => n != 0
  | .str s => s != ""
  | .arr _ => true

/-- JavaScript `a || b`. -/
def jsOr (a b : JVal) : JVal := if truthy a then a else b

/-- JavaScript `v === 'lit'` for a string literal. -/
def strictEqStr (v : JVal) (lit : String) : Bool :=
  match v with
  | .str s => s == lit
  | _ => false

/-- The white space and line terminators that `String.prototype.trim` removes. -/
def isJsWhiteSpace (c : Char) : Bool :=
  let n := c.toNat
  n == 0x09 || n == 0x0A || n == 0x0B || n == 0x0C || n == 0x0D || n == 0x20 ||
  n == 0xA0 || n == 0x1680 || (0x2000 ≤ n && n ≤ 0x200A) || n == 0x2028 ||
  n == 0x2029 || n == 0x202F || n == 0x205F || n == 0x3000 || n == 0xFEFF

/-- Removing the trailing white space of a character list. -/
def dropTrailing (p : Char → Bool) (cs : List Char) : List Char :=
  ((cs.reverse).dropWhile p).reverse

/-- `t.trim()` on characters. -/
def trimChars (cs : List Char) : List Char :=
  dropTrailing isJsWhiteSpace (cs.dropWhile isJsWhiteSpace)

/-- `t.trim()`. -/
def jsTrim (s : String) : String := String.mk (trimChars s.toList)

/-- `s.split(',')` on characters: cut at every comma, keeping empty pieces. -/
def splitComma : List Char → List (List Char)
  | [] => [[]]
  | c :: cs =>
    if c = ',' then [] :: splitComma cs
    else
      match splitComma cs with
      | [] => [[c]]
      | p :: ps => (c :: p) :: ps

/-- `s.split(',')`. -/
def jsSplitComma (s : String) : List String := (splitComma s.toList).map String.mk

/-- The expression
`Array.isArray(technologies) ? technologies : technologies.split(',').map(t => t.trim())`
of `routes/projects.js`. `split` exists on strings only: on any other value the call
throws a `TypeError`. -/
def technologiesArray (technologies : JVal) : Except String (List String) :=
  match technologies with
  | .arr xs => .ok xs
  | .str s => .ok ((jsSplitComma s).map jsTrim)
  | _ => .error "TypeError: technologies.split is not a function"

/-! ## Parameters as PostgreSQL receives them -/

/-- A double quote. -/
def dquote : Char := Char.ofNat 34

/-- A backslash. -/
def bslash : Char := Char.ofNat 92

/-- The element escaping of node-postgres: backslashes and quotes escaped, then quoted. -/
def escapeElement (s : String) : String :=
  let body := s.toList.foldr
    (fun c acc => if c = bslash ∨ c = dquote then bslash :: c :: acc else c :: acc) []
  String.mk (dquote :: (body ++ [dquote]))

/-- The array literal node-postgres sends for a JavaScript array. -/
def arrayString (xs : List String) : String :=
  "\x7b" ++ ",".intercalate (xs.map escapeElement) ++ "\x7d"

/-- The decimal digits of a natural number, most significant first. -/
def natDigits (n : Nat) : List Char := Nat.toDigits 10 n

/-- `Number.prototype.toString` on a safe integer: its decimal digits. -/
def intString (n : Int) : String :=
  match n with
  | Int.ofNat m => String.mk (natDigits m)
  | Int.negSucc m => String.mk ('-' :: natDigits (m + 1))

/-- The `prepareValue` of node-postgres: the text sent for a parameter, `none` for SQL
`NULL`. -/
def prepareValue : JVal → Option String
  | .undefined => none
  | .null => none
  | .bool b => some (if b then "true" else "false")
  | .num n _ => some (intString n)
  | .str s => some s
  | .arr xs => some (arrayString xs)

/-- The C `isspace` that PostgreSQL's input functions skip. -/
def isPgSpace (c : Char) : Bool :=
  let n := c.toNat
  n == 0x20 || n == 0x09 || n == 0x0A || n == 0x0B || n == 0x0C || n == 0x0D

/-- The value of a non-empty run of decimal digits. -/
def digitsValue (cs : List Char) : Option Nat :=
  if cs.isEmpty then none
  else cs.foldl
    (fun acc c =>
      match acc with
      | none => none
      | some v => if c.isDigit then some (v * 10 + (c.toNat - '0'.toNat)) else none)
    (some 0)

/-- The input function of `INTEGER`: optional white space, an optional sign, decimal
digits, optional white space; the value in the 32-bit range. -/
def parseInt4 (s : String) : Option Int :=
  let cs := dropTrailing isPgSpace (s.toList.dropWhile isPgSpace)
  let signed : Option Int :=
    match cs with
    | '-' :: ds => (digitsValue ds).map (fun v => - (v : Int))
    | '+' :: ds => (digitsValue ds).map (fun v => (v : Int))
    | ds => (digitsValue ds).map (fun v => (v : Int))
  match signed with
  | some v => if -2147483648 ≤ v ∧ v ≤ 2147483647 then some v else none
  | none => none

/-- A non-empty beginning of `word`. -/
def abbreviates (cs word : List Char) : Bool := !cs.isEmpty && cs.isPrefixOf word

/-- The input function of `BOOLEAN`: case-insensitive, white space trimmed, unique
beginnings of true, false, yes, no, on, off, and the digits 1 and 0. -/
def parseBool (s : String) : Option Bool :=
  let cs := (dropTrailing isPgSpace (s.toList.dropWhile isPgSpace)).map Char.toLower
  if abbreviates cs "true".toList ∨ abbreviates cs "yes".toList ∨ cs = "on".toList
      ∨ cs = ['1'] then some true
  else if abbreviates cs "false".toList ∨ abbreviates cs "no".toList
      ∨ cs = "of".toList ∨ cs = "off".toList ∨ cs = ['0'] then some false
  else none

/-- Binding a parameter to an `INTEGER` position. -/
def bindInt (v : JVal) : Except String (Option Int) :=
  match prepareValue v with
  | none => .ok none
  | some t =>
    match parseInt4 t with
    | some i => .ok (some i)
    | none => .error "invalid input syntax for type integer"

/-- Binding a parameter to a `BOOLEAN` position. -/
def bindBool (v : JVal) : Except String (Option Bool) :=
  match prepareValue v with
  | none => .ok none
  | some t =>
    match parseBool t with
    | some b => .ok (some b)
    | none => .error "invalid input syntax for type boolean"

/-- Whether a text holds the character U+0000. -/
def hasNul (t : String) : Bool := t.toList.any (fun c => c == Char.ofNat 0)

/-- Binding a parameter to a text position (`TEXT` or `VARCHAR`): PostgreSQL refuses a
text that holds U+0000. -/
def bindText (v : JVal) : Except String (Option String) :=
  match prepareValue v with
  | none => .ok none
  | some t =>
    if hasNul t then .error "invalid byte sequence for encoding UTF8: 0x00"
    else .ok (some t)

/-- Binding a JavaScript array of strings to a `TEXT[]` position. -/
def bindTextArray (xs : List String) : Except String (List String) :=
  if xs.any hasNul then .error "invalid byte sequence for encoding UTF8: 0x00"
  else .ok xs

/-- A text without U+0000, or null: what a text position accepts. -/
def cleanText (v : Option String) : Bool :=
  match v with
  | none => true
  | some t => !hasNul t

/-- The first `n` characters of a string. -/
def cutTo (n : Nat) (t : String) : String := String.mk (t.toList.take n)

/-- Assignment to a `VARCHAR(n)` column is accepted when the characters after the n-th
are all spaces, in particular when there are none; otherwise the value is too long. -/
def varcharAccepts (n : Nat) (v : Option String) : Bool :=
  match v with
  | none => true
  | some t => (t.toList.drop n).all (fun c => c == ' ')

/-- The value a `VARCHAR(n)` column holds after an accepted assignment: the excess
spaces are cut off. -/
def varcharStored (n : Nat) (v : Option String) : Option String :=
  match v with
  | none => none
  | some t => some (cutTo n t)

/-- A value of at most `n` characters, or null: what a `VARCHAR(n)` column stores as it
is. -/
def fitsVarchar (n : Nat) (v : Option String) : Bool :=
  match v with
  | none => true
  | some t => t.length ≤ n

deriving instance DecidableEq for Except

/-- SQL `a = b`: true only when both sides are non-null and equal. -/
def sqlEq {α : Type} [BEq α] (a b : Option α) : Bool :=
  match a, b with
  | some x, some y => x == y
  | _, _ => false

/-! ## The tables of `init` -/

/-- A row of `users`. -/
structure User where
  id : Int
  email : String
  password : String
  role : Option String
  created_at : Int
  deriving Repr, DecidableEq

/-- A row of `projects`. -/
structure Project where
  id : Int
  title : String
  description : String
  technologies : List String
  image_url : Option String
  github_url : Option String
  demo_url : Option String
  category : Option String
  featured : Option Bool
  created_at : Int
  updated_at : Int
  deriving Repr, DecidableEq

/-- A row of `comments`. -/
structure Comment where
  id : Int
  project_id : Option Int
  author_name : String
  author_email : String
  content : String
  rating : Option Int
  approved : Option Bool
  created_at : Int
  deriving Repr, DecidableEq

/-- A row of `categories`. -/
structure Category where
  id : Int
  name : String
  color : String
  description : Option String
  created_at : Int
  deriving Repr, DecidableEq

/-- The database: the rows of each table in insertion order and the last value each
`SERIAL` sequence returned. -/
structure Store where
  users : List User
  projects : List Project
  comments : List Comment
  categories : List Category
  usersSeq : Int
  projectsSeq : Int
  commentsSeq : Int
  categoriesSeq : Int
  deriving Repr, DecidableEq

/-! ## Responses -/

/-- The JSON bodies the handlers send. -/
inductive Payload where
  | message (m : String)
  | comments (rows : List Comment)
  | commentMessage (m : String) (comment : Comment)
  | project (row : Project)
  | projects (rows : List Project)
  | category (row : Category)
  | empty
  | login (m : String) (token : String) (id : Int) (email : String) (role : Option String)
  deriving Repr, DecidableEq

/-- A response: `res.status(status).json(body)`; `res.json` alone sends 200. -/
structure Response where
  status : Nat
  body : Payload
  deriving Repr, DecidableEq

/-- The error kinds of the specification. -/
inductive ErrorKind where
  | BadRequest
  | Unauthorized
  | Forbidden
  | NotFound
  | Conflict
  | InternalError
  deriving Repr, DecidableEq

/-- The error kind a response carries, read off its HTTP status. -/
def errorKind (r : Response) : Option ErrorKind :=
  if r.status = 400 then some .BadRequest
  else if r.status = 401 then some .Unauthorized
  else if r.status = 403 then some .Forbidden
  else if r.status = 404 then some .NotFound
  else if r.status = 409 then some .Conflict
  else if r.status = 500 then some .InternalError
  else none

/-- The answer of every `catch` block of the route handlers. -/
def internalError : Response := ⟨500, .message "Error interno del servidor"⟩

/-! ## `routes/comments.js` -/

/-- The order of `ORDER BY created_at DESC` on comments. -/
def Comment.newerFirst (a b : Comment) : Prop := b.created_at ≤ a.created_at

instance : DecidableRel Comment.newerFirst := fun a b =>
  inferInstanceAs (Decidable (b.created_at ≤ a.created_at))

instance : IsTotal Comment Comment.newerFirst :=
  ⟨fun a b => Int.le_total b.created_at a.created_at⟩

instance : IsTrans Comment Comment.newerFirst :=
  ⟨fun _ _ _ h1 h2 => Int.le_trans h2 h1⟩

/-- `SELECT * FROM comments WHERE project_id = $1 AND approved = true
ORDER BY created_at DESC`. -/
def selectApprovedComments (s : Store) (projectId : JVal) : Except String (List Comment) :=
  match bindInt projectId with
  | .error e => .error e
  | .ok pid =>
    .ok ((s.comments.filter
      (fun c => sqlEq c.project_id pid && sqlEq c.approved (some true))).insertionSort
        Comment.newerFirst)

/-- The handler `router.get('/project/:projectId')`. -/
def commentsGetProject (s : Store) (projectId : String) : Response :=
  match selectApprovedComments s (.str projectId) with
  | .ok rows => ⟨200, .comments rows⟩
  | .error _ => internalError

/-- `SELECT id FROM projects WHERE id = $1`. -/
def selectProjectIds (s : Store) (id : JVal) : Except String (List Int) :=
  match bindInt id with
  | .error e => .error e
  | .ok i => .ok ((s.projects.filter (fun p => sqlEq (some p.id) i)).map (fun p => p.id))

/-- The constraint `CHECK (rating >= 1 AND rating <= 5)`; a null rating passes. -/
def ratingCheck (r : Option Int) : Bool :=
  match r with
  | none => true
  | some v => decide (1 ≤ v) && decide (v ≤ 5)

/-- The constraint `project_id INTEGER REFERENCES projects(id)`; a null reference
passes. -/
def projectRefCheck (s : Store) (pid : Option Int) : Bool :=
  match pid with
  | none => true
  | some i => s.projects.any (fun p => p.id == i)

/-- `INSERT INTO comments (project_id, author_name, author_email, content, rating,
approved) VALUES ($1, $2, $3, $4, $5, false) RETURNING *`. A parameter that is not of
the type of its column, or too long for it, is refused before the sequence is read;
after that the sequence has advanced, also when a constraint rejects the row. -/
def insertComment (s : Store) (now : Int)
    (project_id author_name author_email content rating : JVal) :
    Store × Except String Comment :=
  match bindInt project_id, bindInt rating, bindText author_name, bindText author_email,
      bindText content with
  | .ok pid, .ok r, .ok name, .ok email, .ok text =>
    if !(varcharAccepts 255 name && varcharAccepts 255 email) then
      (s, .error "value too long for type character varying(255)")
    else
      let id := s.commentsSeq + 1
      let s1 := { s with commentsSeq := id }
      match varcharStored 255 name, varcharStored 255 email, text with
      | some n, some e, some c =>
        if !ratingCheck r then
          (s1, .error "new row violates check constraint")
        else if s.comments.any (fun x => x.id == id) then
          (s1, .error "duplicate key value violates unique constraint")
        else if !projectRefCheck s pid then
          (s1, .error "insert violates foreign key constraint")
        else
          let row : Comment := ⟨id, pid, n, e, c, r, some false, now⟩
          ({ s1 with comments := s.comments ++ [row] }, .ok row)
      | _, _, _ => (s1, .error "null value violates not-null constraint")
  | _, _, _, _, _ => (s, .error "a parameter is not of the type of its column")

/-- The handler `router.post('/')` of the comments router. -/
def commentsPost (s : Store) (now : Int) (body : JObj) : Store × Response :=
  let project_id := body.field "project_id"
  let author_name := body.field "author_name"
  let author_email := body.field "author_email"
  let content := body.field "content"
  let rating := body.field "rating"
  if !truthy project_id || !truthy author_name || !truthy author_email || !truthy content then
    (s, ⟨400, .message "Todos los campos son requeridos"⟩)
  else
    match selectProjectIds s project_id with
    | .error _ => (s, internalError)
    | .ok projectExists =>
      if projectExists.length = 0 then
        (s, ⟨404, .message "Proyecto no encontrado"⟩)
      else
        match insertComment s now project_id author_name author_email content
            (jsOr rating .null) with
        | (s1, .error _) => (s1, internalError)
        | (s1, .ok row) =>
          (s1, ⟨201, .commentMessage
            "Comentario enviado correctamente. Será revisado antes de publicarse." row⟩)

/-- `UPDATE comments SET approved = $1 WHERE id = $2 RETURNING *`: the new store and
the updated rows. -/
def updateCommentApproved (s : Store) (approved id : JVal) :
    Except String (Store × List Comment) :=
  match bindBool approved, bindInt id with
  | .ok a, .ok i =>
    let hit : Comment → Bool := fun c => sqlEq (some c.id) i
    let set : Comment → Comment := fun c => { c with approved := a }
    let table := s.comments.map (fun c => if hit c then set c else c)
    .ok ({ s with comments := table }, (s.comments.filter hit).map set)
  | _, _ => .error "invalid input syntax"

/-- The handler `router.patch('/:id/approve')`, past the admin guard. -/
def commentsPatchApprove (s : Store) (id : String) (body : JObj) : Store × Response :=
  let approved := body.field "approved"
  match updateCommentApproved s approved (.str id) with
  | .error _ => (s, internalError)
  | .ok (s1, rows) =>
    match rows with
    | [] => (s1, ⟨404, .message "Comentario no encontrado"⟩)
    | row :: _ =>
      (s1, ⟨200, .commentMessage
        (if truthy approved then "Comentario aprobado" else "Comentario rechazado") row⟩)

/-! ## `routes/projects.js` -/

/-- The order of `ORDER BY created_at DESC` on projects. -/
def Project.newerFirst (a b : Project) : Prop := b.created_at ≤ a.created_at

instance : DecidableRel Project.newerFirst := fun a b =>
  inferInstanceAs (Decidable (b.created_at ≤ a.created_at))

instance : IsTotal Project Project.newerFirst :=
  ⟨fun a b => Int.le_total b.created_at a.created_at⟩

instance : IsTrans Project Project.newerFirst :=
  ⟨fun _ _ _ h1 h2 => Int.le_trans h2 h1⟩

/-- The `WHERE` clause that `router.get('/')` assembles: `1=1`, then
`AND category = $1` when `category` is truthy, then `AND featured = true` when
`featured === 'true'`. -/
def projectsWhere (category featured : JVal) (p : Project) : Bool :=
  (if truthy category then sqlEq p.category (prepareValue category) else true) &&
  (if strictEqStr featured "true" then sqlEq p.featured (some true) else true)

/-- The query of `router.get('/')`: `SELECT * FROM projects WHERE` the assembled clause
`ORDER BY created_at DESC`, with `category` as its parameter when it is truthy. -/
def selectProjectsWhere (s : Store) (category featured : JVal) :
    Except String (List Project) :=
  match (if truthy category then bindText category else .ok none) with
  | .error e => .error e
  | .ok _ =>
    .ok ((s.projects.filter (projectsWhere category featured)).insertionSort
      Project.newerFirst)

/-- The handler `router.get('/')` of the projects router. -/
def projectsGet (s : Store) (query : JObj) : Response :=
  let category := query.field "category"
  let featured := query.field "featured"
  match selectProjectsWhere s category featured with
  | .ok rows => ⟨200, .projects rows⟩
  | .error _ => internalError

/-- `SELECT * FROM projects WHERE id = $1`. -/
def selectProjects (s : Store) (id : JVal) : Except String (List Project) :=
  match bindInt id with
  | .error e => .error e
  | .ok i => .ok (s.projects.filter (fun p => sqlEq (some p.id) i))

/-- Values within the column widths of `projects` (`title VARCHAR(255)`, the three URLs
`VARCHAR(500)`, `category VARCHAR(100)`): what the columns store as they are. -/
def projectWidths (title : String) (image_url github_url demo_url category : Option String) :
    Bool :=
  fitsVarchar 255 (some title) && fitsVarchar 500 image_url && fitsVarchar 500 github_url &&
  fitsVarchar 500 demo_url && fitsVarchar 100 category

/-- Texts without U+0000 for every text column of `projects`: what the columns accept as
text. -/
def projectClean (title description : String) (technologies : List String)
    (image_url github_url demo_url category : Option String) : Bool :=
  !hasNul title && !hasNul description && !technologies.any hasNul && cleanText image_url &&
  cleanText github_url && cleanText demo_url && cleanText category

/-- `INSERT INTO projects (title, description, technologies, image_url, github_url,
demo_url, category, featured) VALUES ($1, ..., $8) RETURNING *`. As for comments, a
parameter of the wrong type or length is refused before the sequence is read. -/
def insertProject (s : Store) (now : Int) (title description : JVal)
    (technologies : List String) (image_url github_url demo_url category featured : JVal) :
    Store × Except String Project :=
  match bindText title, bindText description, bindTextArray technologies, bindBool featured with
  | .ok ttl, .ok dsc, .ok techs, .ok f =>
    match bindText image_url, bindText github_url, bindText demo_url, bindText category with
    | .ok img, .ok gh, .ok demo, .ok cat =>
      if !(varcharAccepts 255 ttl && varcharAccepts 500 img && varcharAccepts 500 gh &&
          varcharAccepts 500 demo && varcharAccepts 100 cat) then
        (s, .error "value too long for type character varying")
      else
        let id := s.projectsSeq + 1
        let s1 := { s with projectsSeq := id }
        match varcharStored 255 ttl, dsc with
        | some t, some d =>
          if s.projects.any (fun x => x.id == id) then
            (s1, .error "duplicate key value violates unique constraint")
          else
            let row : Project :=
              ⟨id, t, d, techs, varcharStored 500 img, varcharStored 500 gh,
                varcharStored 500 demo, varcharStored 100 cat, f, now, now⟩
            ({ s1 with projects := s.projects ++ [row] }, .ok row)
        | _, _ => (s1, .error "null value violates not-null constraint")
    | _, _, _, _ => (s, .error "a parameter is not of the type of its column")
  | _, _, _, _ => (s, .error "a parameter is not of the type of its column")

/-- The image reference of a request: the template string over `req.file.filename`
when a file was uploaded, else the fallback. -/
def imageUrl (file : Option String) (fallback : JVal) : JVal :=
  match file with
  | some filename => .str ("/uploads/" ++ filename)
  | none => fallback

/-- The handler `router.post('/')` of the projects router, past the admin guard and
the upload middleware; `file` is the stored filename of the uploaded image. -/
def projectsPost (s : Store) (now : Int) (body : JObj) (file : Option String) :
    Store × Response :=
  let title := body.field "title"
  let description := body.field "description"
  let technologies := body.field "technologies"
  let github_url := body.field "github_url"
  let demo_url := body.field "demo_url"
  let category := body.field "category"
  let featured := body.field "featured"
  if !truthy title || !truthy description || !truthy technologies then
    (s, ⟨400, .message "Título, descripción y tecnologías son requeridos"⟩)
  else
    match technologiesArray technologies with
    | .error _ => (s, internalError)
    | .ok techs =>
      match insertProject s now title description techs (imageUrl file .null) github_url
          demo_url (jsOr category (.str "web")) (.bool (strictEqStr featured "true")) with
      | (s1, .error _) => (s1, internalError)
      | (s1, .ok row) => (s1, ⟨201, .project row⟩)

/-- A nullable text column read back into JavaScript. -/
def textValue (v : Option String) : JVal :=
  match v with
  | some t => .str t
  | none => .null

/-- `UPDATE projects SET title = $1, description = $2, technologies = $3, image_url = $4,
github_url = $5, demo_url = $6, category = $7, featured = $8,
updated_at = CURRENT_TIMESTAMP WHERE id = $9 RETURNING *`. -/
def updateProject (s : Store) (now : Int) (title description : JVal)
    (technologies : List String) (image_url github_url demo_url category featured id : JVal) :
    Except String (Store × List Project) :=
  match bindText title, bindText description, bindTextArray technologies, bindBool featured,
      bindInt id with
  | .ok ttl, .ok dsc, .ok techs, .ok f, .ok i =>
    match bindText image_url, bindText github_url, bindText demo_url, bindText category with
    | .ok img, .ok gh, .ok demo, .ok cat =>
      if !(varcharAccepts 255 ttl && varcharAccepts 500 img && varcharAccepts 500 gh &&
          varcharAccepts 500 demo && varcharAccepts 100 cat) then
        .error "value too long for type character varying"
      else
        match varcharStored 255 ttl, dsc with
        | some t, some d =>
          let hit : Project → Bool := fun p => sqlEq (some p.id) i
          let set : Project → Project := fun p =>
            { p with title := t, description := d, technologies := techs,
                     image_url := varcharStored 500 img, github_url := varcharStored 500 gh,
                     demo_url := varcharStored 500 demo, category := varcharStored 100 cat,
                     featured := f, updated_at := now }
          let table := s.projects.map (fun p => if hit p then set p else p)
          .ok ({ s with projects := table }, (s.projects.filter hit).map set)
        | _, _ => .error "null value violates not-null constraint"
    | _, _, _, _ => .error "a parameter is not of the type of its column"
  | _, _, _, _, _ => .error "a parameter is not of the type of its column"

/-- The handler `router.put('/:id')` of the projects router, past the admin guard and
the upload middleware. -/
def projectsPut (s : Store) (now : Int) (id : String) (body : JObj) (file : Option String) :
    Store × Response :=
  let title := body.field "title"
  let description := body.field "description"
  let technologies := body.field "technologies"
  let github_url := body.field "github_url"
  let demo_url := body.field "demo_url"
  let category := body.field "category"
  let featured := body.field "featured"
  match selectProjects s (.str id) with
  | .error _ => (s, internalError)
  | .ok [] => (s, ⟨404, .message "Proyecto no encontrado"⟩)
  | .ok (existing :: _) =>
    match technologiesArray technologies with
    | .error _ => (s, internalError)
    | .ok techs =>
      match updateProject s now title description techs
          (imageUrl file (textValue existing.image_url)) github_url demo_url category
          (.bool (strictEqStr featured "true")) (.str id) with
      | .error _ => (s, internalError)
      | .ok (s1, []) => (s1, ⟨200, .empty⟩)
      | .ok (s1, row :: _) => (s1, ⟨200, .project row⟩)

/-- `DELETE FROM projects WHERE id = $1 RETURNING *`; the foreign key of `comments` is
`ON DELETE CASCADE`, so the comments of a deleted project go with it. -/
def deleteProject (s : Store) (id : JVal) : Except String (Store × List Project) :=
  match bindInt id with
  | .error e => .error e
  | .ok i =>
    let hit : Project → Bool := fun p => sqlEq (some p.id) i
    let gone := s.projects.filter hit
    .ok ({ s with
            projects := s.projects.filter (fun p => !hit p),
            comments := s.comments.filter
              (fun c => !gone.any (fun p => sqlEq c.project_id (some p.id))) },
         gone)

/-- The handler `router.delete('/:id')` of the projects router, past the admin guard. -/
def projectsDelete (s : Store) (id : String) : Store × Response :=
  match deleteProject s (.str id) with
  | .error _ => (s, internalError)
  | .ok (s1, []) => (s1, ⟨404, .message "Proyecto no encontrado"⟩)
  | .ok (s1, _ :: _) => (s1, ⟨200, .message "Proyecto eliminado correctamente"⟩)

/-! ## `routes/categories.js` -/

/-- `SELECT id FROM categories WHERE name = $1`: the rows whose name is the text sent.
A name that PostgreSQL refuses as text is the name of no row; the `INSERT` that follows
in the handler binds the same name and is where that refusal is raised. -/
def selectCategoryIdsByName (s : Store) (name : JVal) : List Int :=
  (s.categories.filter (fun c => sqlEq (some c.name) (prepareValue name))).map (fun c => c.id)

/-- `SELECT id FROM categories WHERE id = $1`. -/
def selectCategoryIds (s : Store) (id : JVal) : Except String (List Int) :=
  match bindInt id with
  | .error e => .error e
  | .ok i => .ok ((s.categories.filter (fun c => sqlEq (some c.id) i)).map (fun c => c.id))

/-- `INSERT INTO categories (name, color, description) VALUES ($1, $2, $3) RETURNING *`
against `name VARCHAR(100) UNIQUE NOT NULL` and `color VARCHAR(7) NOT NULL`. -/
def insertCategory (s : Store) (now : Int) (name color description : JVal) :
    Store × Except String Category :=
  match bindText name, bindText color, bindText description with
  | .ok nm, .ok cl, .ok dsc =>
    if !(varcharAccepts 100 nm && varcharAccepts 7 cl) then
      (s, .error "value too long for type character varying")
    else
      let id := s.categoriesSeq + 1
      let s1 := { s with categoriesSeq := id }
      match varcharStored 100 nm, varcharStored 7 cl with
      | some n, some col =>
        if s.categories.any (fun x => x.id == id || x.name == n) then
          (s1, .error "duplicate key value violates unique constraint")
        else
          let row : Category := ⟨id, n, col, dsc, now⟩
          ({ s1 with categories := s.categories ++ [row] }, .ok row)
      | _, _ => (s1, .error "null value violates not-null constraint")
  | _, _, _ => (s, .error "a parameter is not of the type of its column")

/-- The handler `router.post('/')` of the categories router, past the admin guard. -/
def categoriesPost (s : Store) (now : Int) (body : JObj) : Store × Response :=
  let name := body.field "name"
  let color := body.field "color"
  let description := body.field "description"
  if !truthy name || !truthy color then
    (s, ⟨400, .message "Nombre y color son requeridos"⟩)
  else if (selectCategoryIdsByName s name).length > 0 then
    (s, ⟨400, .message "Ya existe una categoría con ese nombre"⟩)
  else
    match insertCategory s now name color (jsOr description .null) with
    | (s1, .error _) => (s1, internalError)
    | (s1, .ok row) => (s1, ⟨201, .category row⟩)

/-- SQL `a != b`: true only when both sides are non-null and differ. -/
def sqlNe {α : Type} [BEq α] (a b : Option α) : Bool :=
  match a, b with
  | some x, some y => x != y
  | _, _ => false

/-- `SELECT id FROM categories WHERE name = $1 AND id != $2`. As for the lookup by name
of the create handler, a name that PostgreSQL refuses as text is the name of no row and
the `UPDATE` that follows raises the refusal. -/
def selectDuplicateCategoryIds (s : Store) (name id : JVal) : Except String (List Int) :=
  match bindInt id with
  | .error e => .error e
  | .ok i =>
    .ok ((s.categories.filter
      (fun c => sqlEq (some c.name) (prepareValue name) && sqlNe (some c.id) i)).map
        (fun c => c.id))

/-- `UPDATE categories SET name = $1, color = $2, description = $3 WHERE id = $4
RETURNING *` against `name VARCHAR(100) UNIQUE NOT NULL` and `color VARCHAR(7) NOT NULL`.
The unique constraint refuses the statement when a rewritten row would share its name
with a row left alone or with another rewritten row. -/
def updateCategory (s : Store) (name color description id : JVal) :
    Except String (Store × List Category) :=
  match bindText name, bindText color, bindText description, bindInt id with
  | .ok nm, .ok cl, .ok dsc, .ok i =>
    if !(varcharAccepts 100 nm && varcharAccepts 7 cl) then
      .error "value too long for type character varying"
    else
      match varcharStored 100 nm, varcharStored 7 cl with
      | some n, some col =>
        let hit : Category → Bool := fun c => sqlEq (some c.id) i
        let set : Category → Category := fun c =>
          { c with name := n, color := col, description := dsc }
        let hits := s.categories.filter hit
        let others := s.categories.filter (fun c => !hit c)
        if decide (hits.length > 1) ||
            (decide (hits.length > 0) && others.any (fun c => c.name == n)) then
          .error "duplicate key value violates unique constraint"
        else
          let table := s.categories.map (fun c => if hit c then set c else c)
          .ok ({ s with categories := table }, hits.map set)
      | _, _ => .error "null value violates not-null constraint"
  | _, _, _, _ => .error "a parameter is not of the type of its column"

/-- The handler `router.put('/:id')` of the categories router, past the admin guard. -/
def categoriesPut (s : Store) (id : String) (body : JObj) : Store × Response :=
  let name := body.field "name"
  let color := body.field "color"
  let description := body.field "description"
  match selectCategoryIds s (.str id) with
  | .error _ => (s, internalError)
  | .ok existingCategory =>
    if existingCategory.length = 0 then
      (s, ⟨404, .message "Categoría no encontrada"⟩)
    else
      match selectDuplicateCategoryIds s name (.str id) with
      | .error _ => (s, internalError)
      | .ok duplicateCategory =>
        if duplicateCategory.length > 0 then
          (s, ⟨400, .message "Ya existe una categoría con ese nombre"⟩)
        else
          match updateCategory s name color (jsOr description .null) (.str id) with
          | .error _ => (s, internalError)
          | .ok (s1, []) => (s1, ⟨200, .empty⟩)
          | .ok (s1, row :: _) => (s1, ⟨200, .category row⟩)

/-- `SELECT COUNT(*) FROM projects WHERE category = (SELECT name FROM categories
WHERE id = $1)`. The scalar subquery is null when no category has the id and is an
error when more than one has. -/
def countProjectsUsingCategory (s : Store) (id : JVal) : Except String Nat :=
  match bindInt id with
  | .error e => .error e
  | .ok i =>
    match (s.categories.filter (fun c => sqlEq (some c.id) i)).map (fun c => c.name) with
    | [] => .ok 0
    | [n] => .ok ((s.projects.filter (fun p => sqlEq p.category (some n))).length)
    | _ => .error "more than one row returned by a subquery used as an expression"

/-- `DELETE FROM categories WHERE id = $1 RETURNING *`. -/
def deleteCategory (s : Store) (id : JVal) : Except String (Store × List Category) :=
  match bindInt id with
  | .error e => .error e
  | .ok i =>
    let hit : Category → Bool := fun c => sqlEq (some c.id) i
    .ok ({ s with categories := s.categories.filter (fun c => !hit c) },
         s.categories.filter hit)

/-- The handler `router.delete('/:id')` of the categories router, past the admin
guard. -/
def categoriesDelete (s : Store) (id : String) : Store × Response :=
  match selectCategoryIds s (.str id) with
  | .error _ => (s, internalError)
  | .ok existingCategory =>
    if existingCategory.length = 0 then
      (s, ⟨404, .message "Categoría no encontrada"⟩)
    else
      match countProjectsUsingCategory s (.str id) with
      | .error _ => (s, internalError)
      | .ok count =>
        if count > 0 then
          (s, ⟨400, .message
            "No se puede eliminar la categoría porque tiene proyectos asociados"⟩)
        else
          match deleteCategory s (.str id) with
          | .error _ => (s, internalError)
          | .ok (s1, _) => (s1, ⟨200, .message "Categoría eliminada correctamente"⟩)

/-! ## `routes/auth.js` -/

/-- `SELECT * FROM users WHERE email = $1`. -/
def selectUsersByEmail (s : Store) (email : JVal) : Except String (List User) :=
  match bindText email with
  | .error e => .error e
  | .ok t => .ok (s.users.filter (fun u => sqlEq (some u.email) t))

/-- The handler `router.post('/login')`. `compare` is `bcrypt.compare` (it may reject)
and `sign` is `jwt.sign` over the claims id, email and role with the configured secret
and expiry (it may throw). -/
def login (compare : JVal → String → Except String Bool)
    (sign : Int → String → Option String → Except String String)
    (s : Store) (body : JObj) : Response :=
  let email := body.field "email"
  let password := body.field "password"
  if !truthy email || !truthy password then
    ⟨400, .message "Email y contraseña son requeridos"⟩
  else
    match selectUsersByEmail s email with
    | .error _ => internalError
    | .ok [] => ⟨401, .message "Credenciales inválidas"⟩
    | .ok (user :: _) =>
      match compare password user.password with
      | .error _ => internalError
      | .ok false => ⟨401, .message "Credenciales inválidas"⟩
      | .ok true =>
        match sign user.id user.email user.role with
        | .error _ => internalError
        | .ok token => ⟨200, .login "Login exitoso" token user.id user.email user.role⟩

/-! ## `config/database.js` -/

/-- The two settings the database module reads from `process.env`; `none` is an unset
variable. -/
structure Env where
  ADMIN_EMAIL : Option String
  ADMIN_PASSWORD : Option String
  deriving Repr, DecidableEq

/-- `process.env.X || 'fallback'`. -/
def envOr (v : Option String) (fallback : String) : String :=
  match jsOr (textValue v) (.str fallback) with
  | .str t => t
  | _ => fallback

/-- The `adminEmail` of `init` and `resetAdminUser`. -/
def adminEmail (env : Env) : String := envOr env.ADMIN_EMAIL "admin@cristhoper.com"

/-- The `adminPassword` of `init` and `resetAdminUser`. -/
def adminPassword (env : Env) : String := envOr env.ADMIN_PASSWORD "admin123"

/-- `SELECT id FROM users WHERE email = $1`. -/
def selectUserIdsByEmail (s : Store) (email : String) : Except String (List Int) :=
  match bindText (.str email) with
  | .error e => .error e
  | .ok t => .ok ((s.users.filter (fun u => sqlEq (some u.email) t)).map (fun u => u.id))

/-- `INSERT INTO users (email, password, role) VALUES ($1, $2, $3)` against
`email VARCHAR(255) UNIQUE NOT NULL`, `password VARCHAR(255) NOT NULL` and
`role VARCHAR(50)`. -/
def insertUser (s : Store) (now : Int) (email password role : String) :
    Store × Except String Unit :=
  match bindText (.str email), bindText (.str password), bindText (.str role) with
  | .ok em, .ok pw, .ok rl =>
    if !(varcharAccepts 255 em && varcharAccepts 255 pw && varcharAccepts 50 rl) then
      (s, .error "value too long for type character varying")
    else
      let id := s.usersSeq + 1
      let s1 := { s with usersSeq := id }
      match varcharStored 255 em, varcharStored 255 pw with
      | some e, some p =>
        if s.users.any (fun u => u.id == id || u.email == e) then
          (s1, .error "duplicate key value violates unique constraint")
        else
          let row : User := ⟨id, e, p, varcharStored 50 rl, now⟩
          ({ s1 with users := s.users ++ [row] }, .ok ())
      | _, _ => (s1, .error "null value violates not-null constraint")
  | _, _, _ => (s, .error "a parameter is not of the type of its column")

/-- `DELETE FROM users WHERE email = $1`. -/
def deleteUsersByEmail (s : Store) (email : String) : Except String Store :=
  match bindText (.str email) with
  | .error e => .error e
  | .ok t => .ok { s with users := s.users.filter (fun u => !sqlEq (some u.email) t) }

/-- The three rows of the example `INSERT INTO projects` of `init`, numbered from
`first`. -/
def exampleProjects (first now : Int) : List Project :=
  [⟨first, "Syllabus Backend",
      "Sistema de gestión de cursos online con autenticación y administración completa",
      ["Node.js", "Express", "PostgreSQL", "JWT"], none,
      some "https://github.com/cristhoper/syllabus-backend", some "https://syllabus-demo.com",
      some "backend", some true, now, now⟩,
   ⟨first + 1, "Museo Interactivo Jipijapa",
      "Experiencia 3D y Realidad Aumentada para museo virtual",
      ["Three.js", "React", "WebXR", "Blender"], none,
      some "https://github.com/cristhoper/museo-jipijapa", some "https://museo-jipijapa.com",
      some "web", some true, now, now⟩,
   ⟨first + 2, "ExactApp", "Sistema de gestión de cursos vacacionales con reservas y pagos",
      ["Laravel", "MySQL", "Bootstrap", "Stripe"], none,
      some "https://github.com/cristhoper/exactapp", some "https://exactapp.com",
      some "web", some true, now, now⟩]

/-- The five rows of the default `INSERT INTO categories` of `init`, numbered from
`first`. -/
def defaultCategories (first now : Int) : List Category :=
  [⟨first, "Web", "#7FB3D5", some "Aplicaciones y sitios web", now⟩,
   ⟨first + 1, "Backend", "#82E0AA", some "APIs y servicios backend", now⟩,
   ⟨first + 2, "Mobile", "#BB8FCE", some "Aplicaciones móviles", now⟩,
   ⟨first + 3, "Desktop", "#F7DC6F", some "Aplicaciones de escritorio", now⟩,
   ⟨first + 4, "DevOps", "#E74C3C", some "Infraestructura y deployment", now⟩]

/-- The example `INSERT INTO projects` of `init`: one statement, so all three rows or
none. -/
def insertExampleProjects (s : Store) (now : Int) : Store × Except String Unit :=
  let rows := exampleProjects (s.projectsSeq + 1) now
  let s1 := { s with projectsSeq := s.projectsSeq + 3 }
  if s.projects.any (fun p => rows.any (fun r => r.id == p.id)) then
    (s1, .error "duplicate key value violates unique constraint")
  else
    ({ s1 with projects := s.projects ++ rows }, .ok ())

/-- The default `INSERT INTO categories` of `init`: one statement, so all five rows or
none. -/
def insertDefaultCategories (s : Store) (now : Int) : Store × Except String Unit :=
  let rows := defaultCategories (s.categoriesSeq + 1) now
  let s1 := { s with categoriesSeq := s.categoriesSeq + 5 }
  if s.categories.any (fun c => rows.any (fun r => r.id == c.id || r.name == c.name)) then
    (s1, .error "duplicate key value violates unique constraint")
  else
    ({ s1 with categories := s.categories ++ rows }, .ok ())

/-- The function `init`. The four `CREATE TABLE IF NOT EXISTS` find the tables of the
store in place. `hash` is `bcrypt.hash` with cost 10; the three timestamps are those of
the three `INSERT` statements. A statement that fails makes `init` rethrow, with the
statements before it already applied. -/
def init (hash : String → Except String String) (env : Env) (s : Store)
    (tUser tProjects tCategories : Int) : Store × Except String Unit :=
  let afterAdmin : Store × Except String Unit :=
    match selectUserIdsByEmail s (adminEmail env) with
    | .error e => (s, .error e)
    | .ok adminExists =>
      if adminExists.length = 0 then
        match hash (adminPassword env) with
        | .error e => (s, .error e)
        | .ok hashedPassword => insertUser s tUser (adminEmail env) hashedPassword "admin"
      else (s, .ok ())
  match afterAdmin with
  | (s1, .error e) => (s1, .error e)
  | (s1, .ok _) =>
    let afterProjects : Store × Except String Unit :=
      if s1.projects.length = 0 then insertExampleProjects s1 tProjects else (s1, .ok ())
    match afterProjects with
    | (s2, .error e) => (s2, .error e)
    | (s2, .ok _) =>
      if s2.categories.length = 0 then insertDefaultCategories s2 tCategories
      else (s2, .ok ())

/-- The function `resetAdminUser`: on success the credentials it returns. The `DELETE`
stays applied when the hashing or the `INSERT` after it fails. -/
def resetAdminUser (hash : String → Except String String) (env : Env) (s : Store)
    (now : Int) : Store × Except String (String × String) :=
  match deleteUsersByEmail s (adminEmail env) with
  | .error e => (s, .error e)
  | .ok s1 =>
    match hash (adminPassword env) with
    | .error e => (s1, .error e)
    | .ok hashedPassword =>
      match insertUser s1 now (adminEmail env) hashedPassword "admin" with
      | (s2, .error e) => (s2, .error e)
      | (s2, .ok _) => (s2, .ok (adminEmail env, adminPassword env))

/-- No two categories share a name and no two users share an email. -/
def Store.unique (s : Store) : Prop :=
  (s.categories.map (fun c => c.name)).Nodup ∧ (s.users.map (fun u => u.email)).Nodup

instance (s : Store) : Decidable s.unique :=
  inferInstanceAs (Decidable (_ ∧ _))

/-! ## Reference definitions -/

/-- The words of the claim for a string: cut at every comma, strip the white space at
both ends of each piece, keep the order. -/
def splitTrimSpec (s : String) : List String :=
  (s.toList.splitOn ',').map
    (fun piece => String.mk ((piece.dropWhile isJsWhiteSpace).rdropWhile isJsWhiteSpace))

/-! ## Example data -/

/-- A project row used in examples. -/
def sampleProject : Project :=
  ⟨1, "Demo", "A demo", ["Go"], none, none, none, some "web", some true, 0, 0⟩

/-- A store with one project and nothing else. -/
def sampleStore : Store :=
  { users := [], projects := [sampleProject], comments := [], categories := [],
    usersSeq := 0, projectsSeq := 1, commentsSeq := 0, categoriesSeq := 0 }

/-- A comment submission with a rating outside 1..5. -/
def ratedNineBody : JObj :=
  [("project_id", .num 1 (by decide)), ("author_name", .str "Ana"),
   ("author_email", .str "ana@example.com"), ("content", .str "Hola"), ("rating", .num 9 (by decide))]

/-- A comment submission that tries to approve itself. -/
def approvedTrueBody : JObj :=
  [("project_id", .str "1"), ("author_name", .str "Ana"),
   ("author_email", .str "ana@example.com"), ("content", .str "Hola"), ("rating", .num 5 (by decide)),
   ("approved", .bool true)]

/-- A comment awaiting moderation. -/
def pendingComment : Comment :=
  ⟨1, some 1, "Ana", "ana@example.com", "Hola", some 5, some false, 3⟩

/-- The sample store with one comment awaiting moderation. -/
def moderationStore : Store :=
  { sampleStore with comments := [pendingComment], commentsSeq := 1 }

/-- A project form whose technologies are one comma-separated string. -/
def goRustZigBody : JObj :=
  [("title", .str "Tools"), ("description", .str "Small tools"),
   ("technologies", .str "Go, Rust , Zig")]

/-- The category "Web". -/
def webCategory : Category := ⟨1, "Web", "#7FB3D5", some "Aplicaciones y sitios web", 0⟩

/-- A project filed under "Web". -/
def webProject : Project :=
  ⟨1, "Sitio", "Un sitio", ["React"], none, none, none, some "Web", some false, 0, 0⟩

/-- A store with the category "Web" and one project filed under it. -/
def webStore : Store :=
  { users := [], projects := [webProject], comments := [], categories := [webCategory],
    usersSeq := 0, projectsSeq := 1, commentsSeq := 0, categoriesSeq := 1 }

/-- A store with the category "Web" and no project. -/
def webOnlyStore : Store := { webStore with projects := [] }

/-- A request to create a second category "Web". -/
def webBody : JObj := [("name", .str "Web"), ("color", .str "#82E0AA")]

/-- The administrator row. -/
def adminUser : User := ⟨1, "admin@cristhoper.com", "hash-of-admin123", some "admin", 0⟩

/-- A store whose only user is the administrator. -/
def adminStore : Store := { sampleStore with users := [adminUser], usersSeq := 1 }

/-- A stand-in for `bcrypt.compare` in examples: a string verifies against the hash that
is "hash-of-" followed by it, and a password that is not a string is rejected. -/
def toyCompare (password : JVal) (hash : String) : Except String Bool :=
  match password with
  | .str p => .ok ("hash-of-" ++ p == hash)
  | _ => .error "Illegal arguments"

/-- A stand-in for `jwt.sign` in examples. -/
def toySign (id : Int) (email : String) (_role : Option String) : Except String String :=
  .ok ("token-" ++ intString id ++ "-" ++ email)

/-- A login for the administrator whose password is the number 123. -/
def numericPasswordBody : JObj :=
  [("email", .str "admin@cristhoper.com"), ("password", .num 123 (by decide))]

/-- A login for an address no user has, with the same numeric password. -/
def numericPasswordUnknownBody : JObj :=
  [("email", .str "nobody@example.com"), ("password", .num 123 (by decide))]

/-- Three projects: two featured, filed under "web" and "backend", and one not featured. -/
def catalogueStore : Store :=
  { users := [],
    projects :=
      [⟨1, "A", "a", ["Go"], none, none, none, some "backend", some true, 10, 10⟩,
       ⟨2, "B", "b", ["JS"], none, none, none, some "web", some true, 30, 30⟩,
       ⟨3, "C", "c", ["C"], none, none, none, some "web", some false, 20, 20⟩],
    comments := [], categories := [],
    usersSeq := 0, projectsSeq := 3, commentsSeq := 0, categoriesSeq := 0 }

/-- A project form whose title has 256 characters. -/
def longTitleBody : JObj :=
  [("title", .str (String.mk (List.replicate 256 'a'))), ("description", .str "Small tools"),
   ("technologies", .str "Go")]

/-- A project form with a category, the featured flag and both links. -/
def fullProjectBody : JObj :=
  [("title", .str "Tools"), ("description", .str "Small tools"),
   ("technologies", .arr ["Go", "Rust"]), ("github_url", .str "https://example.com/src"),
   ("demo_url", .str "https://example.com"), ("category", .str "backend"),
   ("featured", .str "true")]

/-- The complete project form with a title of 256 characters. -/
def longTitleFullBody : JObj :=
  [("title", .str (String.mk (List.replicate 256 'a'))), ("description", .str "Small tools"),
   ("technologies", .arr ["Go", "Rust"]), ("github_url", .str "https://example.com/src"),
   ("demo_url", .str "https://example.com"), ("category", .str "backend"),
   ("featured", .str "true")]

/-- An update form without the technologies field. -/
def noTechnologiesBody : JObj :=
  [("title", .str "Tools"), ("description", .str "Small tools"), ("category", .str "web")]

/-- A store with two projects, the first of which has an image. -/
def galleryStore : Store :=
  { users := [],
    projects :=
      [⟨1, "A", "a", ["Go"], some "/uploads/project-1.png", none, none, some "web",
         some false, 10, 10⟩,
       ⟨2, "B", "b", ["JS"], none, none, none, some "web", some true, 30, 30⟩],
    comments := [], categories := [],
    usersSeq := 0, projectsSeq := 2, commentsSeq := 0, categoriesSeq := 0 }

/-- A stand-in for `bcrypt.hash` in examples, matching `toyCompare`. -/
def toyHash (password : String) : Except String String := .ok ("hash-of-" ++ password)

/-- A configuration with both variables unset. -/
def defaultEnv : Env := ⟨none, none⟩

/-- A configuration whose administrator address has 256 characters. -/
def longEmailEnv : Env := ⟨some (String.mk (List.replicate 256 'a')), none⟩

/-- An empty database. -/
def emptyStore : Store :=
  { users := [], projects := [], comments := [], categories := [],
    usersSeq := 0, projectsSeq := 0, commentsSeq := 0, categoriesSeq := 0 }

/-- The categories "Web" and "Backend". -/
def twoCategoryStore : Store :=
  { emptyStore with
    categories := [webCategory, ⟨2, "Backend", "#82E0AA", none, 0⟩], categoriesSeq := 2 }

/-- The categories "Web" and "Backend" and the administrator. -/
def portfolioStore : Store := { twoCategoryStore with users := [adminUser], usersSeq := 1 }

/-! ## Theorems -/

set_option maxRecDepth 8000

/-- A string of at most `n` characters is its own first `n` characters. -/
theorem cutTo_of_length {n : Nat} {t : String} (h : t.length ≤ n) : cutTo n t = t := by
  cases t with
  | mk cs =>
    have h' : cs.length ≤ n := h
    simp [cutTo, String.toList, List.take_of_length_le h']

/-- A value that fits a `VARCHAR(n)` column is accepted. -/
theorem varcharAccepts_of_fits {n : Nat} {v : Option String} (h : fitsVarchar n v = true) :
    varcharAccepts n v = true := by
  cases v with
  | none => rfl
  | some t =>
    cases t with
    | mk cs =>
      have h' : cs.length ≤ n := by simpa [fitsVarchar] using h
      simp [varcharAccepts, String.toList, List.drop_of_length_le h']

/-- A value that fits a `VARCHAR(n)` column is stored as it is. -/
theorem varcharStored_of_fits {n : Nat} {v : Option String} (h : fitsVarchar n v = true) :
    varcharStored n v = v := by
  cases v with
  | none => rfl
  | some t =>
    have h' : t.length ≤ n := by simpa [fitsVarchar] using h
    simp [varcharStored, cutTo_of_length h']

/-- Values that fit the columns of `projects` are stored as they are. -/
theorem projectStored_of_widths {t : String} {img gh demo cat : Option String}
    (h : projectWidths t img gh demo cat = true) :
    cutTo 255 t = t ∧ varcharStored 500 img = img ∧ varcharStored 500 gh = gh ∧
    varcharStored 500 demo = demo ∧ varcharStored 100 cat = cat := by
  simp only [projectWidths, Bool.and_eq_true] at h
  obtain ⟨⟨⟨⟨h1, h2⟩, h3⟩, h4⟩, h5⟩ := h
  have h1' : t.length ≤ 255 := by simpa [fitsVarchar] using h1
  exact ⟨cutTo_of_length h1', varcharStored_of_fits h2, varcharStored_of_fits h3,
    varcharStored_of_fits h4, varcharStored_of_fits h5⟩

/-- A truthy value is never sent as SQL `NULL`. -/
theorem prepareValue_of_truthy {v : JVal} (h : truthy v = true) :
    ∃ t, prepareValue v = some t := by
  cases v <;> simp_all [truthy, prepareValue]

/-- A text without U+0000 is bound as it is. -/
theorem bindText_of_clean {v : JVal} (h : cleanText (prepareValue v) = true) :
    bindText v = .ok (prepareValue v) := by
  unfold bindText
  cases hp : prepareValue v with
  | none => rfl
  | some t =>
    have : hasNul t = false := by simpa [cleanText, hp] using h
    simp [this]

/-- An array of texts without U+0000 is bound as it is. -/
theorem bindTextArray_of_clean {xs : List String} (h : xs.any hasNul = false) :
    bindTextArray xs = .ok xs := by
  simp [bindTextArray, h]

/-- C1, as stated, fails: with a project 1 in the store and all four required fields
present, a body whose rating is 9 is rejected by the `CHECK` on `rating`; the handler
answers 500 and no comment is inserted. -/
theorem commentsPost_rating_out_of_range :
    (∃ p ∈ sampleStore.projects, bindInt (ratedNineBody.field "project_id") = .ok (some p.id)) ∧
    truthy (ratedNineBody.field "project_id") = true ∧
    truthy (ratedNineBody.field "author_name") = true ∧
    truthy (ratedNineBody.field "author_email") = true ∧
    truthy (ratedNineBody.field "content") = true ∧
    (commentsPost sampleStore 0 ratedNineBody).2 = internalError ∧
    (commentsPost sampleStore 0 ratedNineBody).1.comments = sampleStore.comments := by
  decide

/-- C1, amended: when the project exists, the four required fields are truthy, the
author name and email fit `VARCHAR(255)`, the three texts hold no U+0000, the rating is
falsy or an integer in 1..5 and the comment sequence is ahead of the stored ids,
`POST /comments` appends exactly one comment with `approved = false`, whatever else the
body carries, answers 201 with that comment, and changes nothing else in the store but
the comment sequence. -/
theorem commentsPost_inserts_unapproved (s : Store) (now : Int) (body : JObj) (pid : Int)
    (hid : truthy (body.field "project_id") = true)
    (hname : truthy (body.field "author_name") = true)
    (hemail : truthy (body.field "author_email") = true)
    (hcontent : truthy (body.field "content") = true)
    (hpid : bindInt (body.field "project_id") = .ok (some pid))
    (hex : ∃ p ∈ s.projects, p.id = pid)
    (hfitName : fitsVarchar 255 (prepareValue (body.field "author_name")) = true)
    (hfitEmail : fitsVarchar 255 (prepareValue (body.field "author_email")) = true)
    (hcleanName : cleanText (prepareValue (body.field "author_name")) = true)
    (hcleanEmail : cleanText (prepareValue (body.field "author_email")) = true)
    (hcleanContent : cleanText (prepareValue (body.field "content")) = true)
    (hrating : ∃ r, bindInt (jsOr (body.field "rating") .null) = .ok r ∧ ratingCheck r = true)
    (hfresh : ∀ c ∈ s.comments, c.id ≠ s.commentsSeq + 1) :
    ∃ c : Comment,
      c.approved = some false ∧ c.project_id = some pid ∧
      (commentsPost s now body).1 =
        { s with commentsSeq := s.commentsSeq + 1, comments := s.comments ++ [c] } ∧
      (commentsPost s now body).2 = ⟨201, .commentMessage
        "Comentario enviado correctamente. Será revisado antes de publicarse." c⟩ := by
  obtain ⟨n, hn⟩ := prepareValue_of_truthy hname
  obtain ⟨e, he⟩ := prepareValue_of_truthy hemail
  obtain ⟨c, hc⟩ := prepareValue_of_truthy hcontent
  obtain ⟨r, hr, hrc⟩ := hrating
  obtain ⟨p, hp, hpp⟩ := hex
  have hany : s.projects.any (fun x => x.id == pid) = true := by
    simp only [List.any_eq_true]
    exact ⟨p, hp, by simp [hpp]⟩
  have hnone : s.comments.any (fun x => x.id == s.commentsSeq + 1) = false := by
    simp only [List.any_eq_false]
    intro x hx
    simpa using hfresh x hx
  have hsel : selectProjectIds s (body.field "project_id")
      = .ok ((s.projects.filter (fun p => sqlEq (some p.id) (some pid))).map (fun p => p.id)) := by
    simp [selectProjectIds, hpid]
  have hlen : ¬ ∀ a ∈ s.projects, sqlEq (some a.id) (some pid) = false := by
    intro h
    have := h p hp
    simp [sqlEq, hpp] at this
  have hbn := bindText_of_clean hcleanName
  have hbe := bindText_of_clean hcleanEmail
  have hbc := bindText_of_clean hcleanContent
  have han := varcharAccepts_of_fits hfitName
  have hae := varcharAccepts_of_fits hfitEmail
  have hsn := varcharStored_of_fits hfitName
  have hse := varcharStored_of_fits hfitEmail
  rw [hn] at hsn han hbn
  rw [he] at hse hae hbe
  rw [hc] at hbc
  refine ⟨⟨s.commentsSeq + 1, some pid, n, e, c, r, some false, now⟩, rfl, rfl, ?_⟩
  simp [commentsPost, hid, hname, hemail, hcontent, hsel, hlen, insertComment, hpid, hr, hbn,
    hbe, hbc, hsn, hse, han, hae, hrc, hnone, projectRefCheck, hany]

/-- C1 at a body that carries `approved: true`. -/
theorem commentsPost_inserts_unapproved_witness :
    approvedTrueBody.field "approved" = .bool true ∧
    ∃ c : Comment,
      c.approved = some false ∧ c.project_id = some 1 ∧
      (commentsPost sampleStore 7 approvedTrueBody).1 =
        { sampleStore with
          commentsSeq := sampleStore.commentsSeq + 1,
          comments := sampleStore.comments ++ [c] } ∧
      (commentsPost sampleStore 7 approvedTrueBody).2 = ⟨201, .commentMessage
        "Comentario enviado correctamente. Será revisado antes de publicarse." c⟩ :=
  ⟨by decide,
   commentsPost_inserts_unapproved sampleStore 7 approvedTrueBody 1 (by decide) (by decide)
     (by decide) (by decide) (by decide) ⟨sampleProject, by decide, rfl⟩ (by decide) (by decide)
     (by decide) (by decide) (by decide) ⟨some 5, by decide, by decide⟩ (by decide)⟩

/-- What the public listing answers: the approved comments of the project, newest first. -/
theorem commentsGetProject_eq (s : Store) (q : String) (p : Int) (hq : parseInt4 q = some p) :
    commentsGetProject s q = ⟨200, .comments
      ((s.comments.filter (fun c => sqlEq c.project_id (some p) && sqlEq c.approved (some true))).insertionSort
        Comment.newerFirst)⟩ := by
  simp [commentsGetProject, selectApprovedComments, bindInt, prepareValue, hq]

/-- SQL equality with a non-null right-hand side. -/
theorem sqlEq_some_iff {α : Type} [BEq α] [LawfulBEq α] (a : Option α) (b : α) :
    sqlEq a (some b) = true ↔ a = some b := by
  cases a <;> simp [sqlEq]

/-- A value that PostgreSQL reads as boolean true is truthy in JavaScript. -/
theorem truthy_of_bindBool_true {v : JVal} (h : bindBool v = .ok (some true)) :
    truthy v = true := by
  cases v with
  | undefined => simp [bindBool, prepareValue] at h
  | null => simp [bindBool, prepareValue] at h
  | bool b => cases b <;> first | rfl | (revert h; decide)
  | num n safe =>
    by_cases hn : n = 0
    · subst hn
      have h0 : bindBool (.num 0 safe) = .ok (some false) := rfl
      rw [h0] at h
      cases h
    · simp [truthy, hn]
  | str t =>
    by_cases ht : t = ""
    · subst ht; revert h; decide
    · simp [truthy, ht]
  | arr xs => rfl

/-- The comments table after the approval handler ran on an id that parses. -/
theorem commentsPatchApprove_comments (s : Store) (id : String) (body : JObj) (i : Int)
    (a : Option Bool) (hid : parseInt4 id = some i)
    (happ : bindBool (body.field "approved") = .ok a) :
    (commentsPatchApprove s id body).1.comments =
      s.comments.map (fun c => if c.id == i then { c with approved := a } else c) := by
  simp only [commentsPatchApprove, updateCommentApproved, happ, bindInt, prepareValue, hid, sqlEq]
  split <;> simp_all

/-- The answer of the approval handler on an id that parses. -/
theorem commentsPatchApprove_response (s : Store) (id : String) (body : JObj) (i : Int)
    (a : Option Bool) (hid : parseInt4 id = some i)
    (happ : bindBool (body.field "approved") = .ok a) :
    (commentsPatchApprove s id body).2 =
      match (s.comments.filter (fun c => c.id == i)).map (fun c => { c with approved := a }) with
      | [] => ⟨404, .message "Comentario no encontrado"⟩
      | row :: _ => ⟨200, .commentMessage
          (if truthy (body.field "approved") then "Comentario aprobado"
           else "Comentario rechazado") row⟩ := by
  simp only [commentsPatchApprove, updateCommentApproved, happ, bindInt, prepareValue, hid, sqlEq]
  split <;> simp_all

/-- C2: the public listing `GET /comments/project/:projectId` either fails or returns
stored comments that all have `approved = true`; and for a stored comment `c` with id
`i`, `PATCH /comments/i/approve` with an `approved` that PostgreSQL reads as true answers
200 with the approved row, after which the listing for the project of `c` contains `c`
with its flag set. -/
theorem comments_public_listing (s : Store) (q : String)
    (id : String) (body : JObj) (i : Int) (c : Comment) (p : Int) (q' : String)
    (hid : parseInt4 id = some i)
    (happ : bindBool (body.field "approved") = .ok (some true))
    (hc : c ∈ s.comments) (hci : c.id = i)
    (hp : c.project_id = some p) (hq' : parseInt4 q' = some p) :
    (commentsGetProject s q = internalError ∨
      ∃ rows, commentsGetProject s q = ⟨200, .comments rows⟩ ∧
        ∀ x ∈ rows, x.approved = some true ∧ x ∈ s.comments) ∧
    (∃ row, (commentsPatchApprove s id body).2.status = 200 ∧
      ((commentsPatchApprove s id body).2.body = .commentMessage "Comentario aprobado" row) ∧
      row.id = i ∧ row.approved = some true) ∧
    ∃ rows, commentsGetProject (commentsPatchApprove s id body).1 q' = ⟨200, .comments rows⟩ ∧
      { c with approved := some true } ∈ rows := by
  refine ⟨?_, ?_, ?_⟩
  · cases hpq : parseInt4 q with
    | none => left; simp [commentsGetProject, selectApprovedComments, bindInt, prepareValue, hpq]
    | some p0 =>
      right
      refine ⟨_, commentsGetProject_eq s q p0 hpq, ?_⟩
      intro x hx
      rw [(List.perm_insertionSort _ _).mem_iff, List.mem_filter] at hx
      simp only [Bool.and_eq_true, sqlEq_some_iff] at hx
      exact ⟨hx.2.2, hx.1⟩
  · have hmem : ({ c with approved := some true } : Comment) ∈
        (s.comments.filter (fun c => c.id == i)).map (fun c => { c with approved := some true }) :=
      List.mem_map.2 ⟨c, List.mem_filter.2 ⟨hc, by simp [hci]⟩, rfl⟩
    rw [commentsPatchApprove_response s id body i (some true) hid happ]
    cases hrows : (s.comments.filter (fun c => c.id == i)).map
        (fun c => { c with approved := some true }) with
    | nil => rw [hrows] at hmem; simp at hmem
    | cons row rest =>
      have hrow : row ∈ (s.comments.filter (fun c => c.id == i)).map
          (fun c => { c with approved := some true }) := by rw [hrows]; simp
      obtain ⟨x, hx, rfl⟩ := List.mem_map.1 hrow
      have hxi : x.id = i := by simpa using (List.mem_filter.1 hx).2
      exact ⟨{ x with approved := some true }, rfl,
        by simp [truthy_of_bindBool_true happ], hxi, rfl⟩
  · rw [commentsGetProject_eq _ q' p hq']
    refine ⟨_, rfl, ?_⟩
    rw [(List.perm_insertionSort _ _).mem_iff, List.mem_filter]
    refine ⟨?_, by simp [sqlEq, hp]⟩
    rw [commentsPatchApprove_comments s id body i (some true) hid happ]
    exact List.mem_map.2 ⟨c, hc, by simp [hci]⟩

/-- C2 at the store with one pending comment. -/
theorem comments_public_listing_witness :
    (commentsGetProject moderationStore "1" = internalError ∨
      ∃ rows, commentsGetProject moderationStore "1" = ⟨200, .comments rows⟩ ∧
        ∀ x ∈ rows, x.approved = some true ∧ x ∈ moderationStore.comments) ∧
    (∃ row,
      (commentsPatchApprove moderationStore "1" [("approved", .bool true)]).2.status = 200 ∧
      ((commentsPatchApprove moderationStore "1" [("approved", .bool true)]).2.body
        = .commentMessage "Comentario aprobado" row) ∧
      row.id = 1 ∧ row.approved = some true) ∧
    ∃ rows,
      commentsGetProject
        (commentsPatchApprove moderationStore "1" [("approved", .bool true)]).1 "1"
          = ⟨200, .comments rows⟩ ∧
      { pendingComment with approved := some true } ∈ rows :=
  comments_public_listing moderationStore "1" "1" [("approved", .bool true)] 1 pendingComment 1
    "1" (by decide) (by decide) (by decide) (by decide) (by decide) (by decide)

/-- A split always has at least one piece. -/
theorem splitComma_ne_nil (cs : List Char) : splitComma cs ≠ [] := by
  cases cs with
  | nil => simp [splitComma]
  | cons c cs =>
    simp only [splitComma]
    split
    · simp
    · split <;> simp

/-- Joining the pieces with commas gives the string back. -/
theorem intercalate_splitComma (cs : List Char) : [','].intercalate (splitComma cs) = cs := by
  induction cs with
  | nil => simp [splitComma, List.intercalate]
  | cons c cs ih =>
    simp only [splitComma]
    split
    · next h =>
      subst h
      cases hsp : splitComma cs with
      | nil => exact absurd hsp (splitComma_ne_nil cs)
      | cons p ps =>
        rw [hsp] at ih
        simp [List.intercalate, List.intersperse] at ih ⊢
        exact ih
    · cases hsp : splitComma cs with
      | nil => exact absurd hsp (splitComma_ne_nil cs)
      | cons p ps =>
        rw [hsp] at ih
        cases ps with
        | nil => simp [List.intercalate, List.intersperse] at ih ⊢; exact ih
        | cons p2 ps2 => simp [List.intercalate, List.intersperse] at ih ⊢; exact ih

/-- No piece of a split contains a comma. -/
theorem comma_not_mem_splitComma (cs : List Char) : ∀ p ∈ splitComma cs, ',' ∉ p := by
  induction cs with
  | nil => simp [splitComma]
  | cons c cs ih =>
    simp only [splitComma]
    split
    · intro p hp
      rcases List.mem_cons.1 hp with h | h
      · simp [h]
      · exact ih p h
    · next hc =>
      cases hsp : splitComma cs with
      | nil => exact absurd hsp (splitComma_ne_nil cs)
      | cons p ps =>
        rw [hsp] at ih
        intro q hq
        rcases List.mem_cons.1 hq with h | h
        · subst h
          intro hmem
          rcases List.mem_cons.1 hmem with h1 | h1
          · exact hc h1.symm
          · exact ih p (List.mem_cons_self _ _) h1
        · exact ih q (List.mem_cons_of_mem _ h)

/-- The split of the source is the library's split at commas. -/
theorem splitComma_eq_splitOn (cs : List Char) : splitComma cs = cs.splitOn ',' := by
  have h := List.splitOn_intercalate (splitComma cs) ',' (comma_not_mem_splitComma cs)
    (splitComma_ne_nil cs)
  rw [intercalate_splitComma] at h
  exact h.symm

/-- On a string the conversion of the handlers is the split-and-trim of the claim. -/
theorem technologiesArray_str (t : String) :
    technologiesArray (.str t) = .ok (splitTrimSpec t) := by
  simp [technologiesArray, splitTrimSpec, jsSplitComma, splitComma_eq_splitOn, jsTrim, trimChars,
    dropTrailing, List.rdropWhile]

/-- Trimming removes a run of white space at each end and leaves a string that neither
starts nor ends with white space. -/
theorem trimChars_spec (cs : List Char) :
    ∃ pre suf, cs = pre ++ trimChars cs ++ suf ∧
      (∀ c ∈ pre, isJsWhiteSpace c = true) ∧ (∀ c ∈ suf, isJsWhiteSpace c = true) ∧
      (∀ c, (trimChars cs).head? = some c → isJsWhiteSpace c = false) ∧
      (∀ c, (trimChars cs).getLast? = some c → isJsWhiteSpace c = false) := by
  have hsplit : ∀ l : List Char,
      l.rdropWhile isJsWhiteSpace ++ l.rtakeWhile isJsWhiteSpace = l := by
    intro l
    simp only [List.rdropWhile, List.rtakeWhile, ← List.reverse_append,
      List.takeWhile_append_dropWhile, List.reverse_reverse]
  have htrim : trimChars cs = (cs.dropWhile isJsWhiteSpace).rdropWhile isJsWhiteSpace := rfl
  refine ⟨cs.takeWhile isJsWhiteSpace,
    (cs.dropWhile isJsWhiteSpace).rtakeWhile isJsWhiteSpace, ?_, ?_, ?_, ?_, ?_⟩
  · rw [htrim, List.append_assoc, hsplit, List.takeWhile_append_dropWhile]
  · intro c hc
    exact List.mem_takeWhile_imp hc
  · intro c hc
    exact List.mem_rtakeWhile_imp hc
  · intro c hc
    obtain ⟨t, ht⟩ := List.rdropWhile_prefix isJsWhiteSpace (l := cs.dropWhile isJsWhiteSpace)
    rw [← htrim] at ht
    have hhead : (cs.dropWhile isJsWhiteSpace).head? = some c := by
      rw [← ht]
      cases htc : trimChars cs with
      | nil => rw [htc] at hc; simp at hc
      | cons a as => rw [htc] at hc; simpa using hc
    have := List.head?_dropWhile_not isJsWhiteSpace cs
    rw [hhead] at this
    simpa using this
  · intro c hc
    have hne : (cs.dropWhile isJsWhiteSpace).rdropWhile isJsWhiteSpace ≠ [] := by
      intro h
      rw [htrim, h] at hc
      simp at hc
    have := List.rdropWhile_last_not isJsWhiteSpace (cs.dropWhile isJsWhiteSpace) hne
    rw [htrim, List.getLast?_eq_getLast _ hne] at hc
    simp only [Option.some.injEq] at hc
    rw [hc] at this
    simpa using this

/-- A JavaScript boolean binds to the same SQL boolean. -/
theorem bindBool_bool (b : Bool) : bindBool (.bool b) = .ok (some b) := by
  cases b <;> decide

/-- A route parameter that parses binds to its integer. -/
theorem bindInt_str (id : String) (i : Int) (h : parseInt4 id = some i) :
    bindInt (.str id) = .ok (some i) := by
  simp [bindInt, prepareValue, h]

/-- Binding a text that holds no U+0000. -/
theorem bindText_some {v : JVal} {t : String} (hp : prepareValue v = some t)
    (hc : hasNul t = false) : bindText v = .ok (some t) := by
  simp [bindText, hp, hc]

/-- Binding the optional texts of a project that hold no U+0000. -/
theorem bindText_cleanText {v : JVal} (h : cleanText (prepareValue v) = true) :
    bindText v = .ok (prepareValue v) := bindText_of_clean h

/-- What `POST /projects` does once its checks pass and the store accepts the values. -/
theorem projectsPost_ok (s : Store) (now : Int) (body : JObj) (file : Option String)
    (t d : String) (techs : List String)
    (htitle : truthy (body.field "title") = true)
    (hdesc : truthy (body.field "description") = true)
    (htech : truthy (body.field "technologies") = true)
    (ht : prepareValue (body.field "title") = some t)
    (hd : prepareValue (body.field "description") = some d)
    (harr : technologiesArray (body.field "technologies") = .ok techs)
    (hw : projectWidths t (prepareValue (imageUrl file .null))
      (prepareValue (body.field "github_url")) (prepareValue (body.field "demo_url"))
      (prepareValue (jsOr (body.field "category") (.str "web"))) = true)
    (hc : projectClean t d techs (prepareValue (imageUrl file .null))
      (prepareValue (body.field "github_url")) (prepareValue (body.field "demo_url"))
      (prepareValue (jsOr (body.field "category") (.str "web"))) = true)
    (hfresh : ∀ p ∈ s.projects, p.id ≠ s.projectsSeq + 1) :
    ∃ row : Project,
      row = ⟨s.projectsSeq + 1, t, d, techs, prepareValue (imageUrl file .null),
        prepareValue (body.field "github_url"), prepareValue (body.field "demo_url"),
        prepareValue (jsOr (body.field "category") (.str "web")),
        some (strictEqStr (body.field "featured") "true"), now, now⟩ ∧
      (projectsPost s now body file).2 = ⟨201, .project row⟩ ∧
      (projectsPost s now body file).1 =
        { s with projectsSeq := s.projectsSeq + 1, projects := s.projects ++ [row] } := by
  have hnone : s.projects.any (fun x => x.id == s.projectsSeq + 1) = false := by
    simp only [List.any_eq_false]
    intro x hx
    simpa using hfresh x hx
  obtain ⟨c1, c2, c3, c4, c5⟩ := projectStored_of_widths hw
  simp only [projectWidths, Bool.and_eq_true] at hw
  obtain ⟨⟨⟨⟨w1, w2⟩, w3⟩, w4⟩, w5⟩ := hw
  simp only [projectClean, Bool.and_eq_true, Bool.not_eq_true'] at hc
  obtain ⟨⟨⟨⟨⟨⟨n1, n2⟩, n3⟩, n4⟩, n5⟩, n6⟩, n7⟩ := hc
  have b1 := bindText_some ht n1
  have b2 := bindText_some hd n2
  have b3 := bindTextArray_of_clean n3
  have b4 := bindText_of_clean n4
  have b5 := bindText_of_clean n5
  have b6 := bindText_of_clean n6
  have b7 := bindText_of_clean n7
  have a1 := varcharAccepts_of_fits w1
  have a2 := varcharAccepts_of_fits w2
  have a3 := varcharAccepts_of_fits w3
  have a4 := varcharAccepts_of_fits w4
  have a5 := varcharAccepts_of_fits w5
  have c1' : varcharStored 255 (some t) = some t := by simp [varcharStored, c1]
  refine ⟨_, rfl, ?_⟩
  simp [projectsPost, htitle, hdesc, htech, harr, insertProject, bindBool_bool, b1, b2, b3, b4,
    b5, b6, b7, a1, a2, a3, a4, a5, hnone, c1', c2, c3, c4, c5]

/-- What `PUT /projects/:id` does once its checks pass and the store accepts the values:
every row with the id is rewritten, the first of them is returned, and nothing else in
the store changes. -/
theorem projectsPut_ok (s : Store) (now : Int) (id : String) (body : JObj)
    (file : Option String) (i : Int) (e : Project) (rest : List Project)
    (t d : String) (techs : List String)
    (hid : parseInt4 id = some i)
    (hrows : s.projects.filter (fun p => p.id == i) = e :: rest)
    (ht : prepareValue (body.field "title") = some t)
    (hd : prepareValue (body.field "description") = some d)
    (harr : technologiesArray (body.field "technologies") = .ok techs)
    (hw : projectWidths t (prepareValue (imageUrl file (textValue e.image_url)))
      (prepareValue (body.field "github_url")) (prepareValue (body.field "demo_url"))
      (prepareValue (body.field "category")) = true)
    (hc : projectClean t d techs (prepareValue (imageUrl file (textValue e.image_url)))
      (prepareValue (body.field "github_url")) (prepareValue (body.field "demo_url"))
      (prepareValue (body.field "category")) = true) :
    ∃ set : Project → Project,
      set = (fun p => { p with
        title := t, description := d, technologies := techs,
        image_url := prepareValue (imageUrl file (textValue e.image_url)),
        github_url := prepareValue (body.field "github_url"),
        demo_url := prepareValue (body.field "demo_url"),
        category := prepareValue (body.field "category"),
        featured := some (strictEqStr (body.field "featured") "true"),
        updated_at := now }) ∧
      (projectsPut s now id body file).2 = ⟨200, .project (set e)⟩ ∧
      (projectsPut s now id body file).1 =
        { s with projects := s.projects.map (fun p => if p.id == i then set p else p) } := by
  refine ⟨_, rfl, ?_⟩
  have hsel : selectProjects s (.str id) = .ok (e :: rest) := by
    simp [selectProjects, bindInt_str id i hid, sqlEq, hrows]
  obtain ⟨c1, c2, c3, c4, c5⟩ := projectStored_of_widths hw
  simp only [projectWidths, Bool.and_eq_true] at hw
  obtain ⟨⟨⟨⟨w1, w2⟩, w3⟩, w4⟩, w5⟩ := hw
  simp only [projectClean, Bool.and_eq_true, Bool.not_eq_true'] at hc
  obtain ⟨⟨⟨⟨⟨⟨n1, n2⟩, n3⟩, n4⟩, n5⟩, n6⟩, n7⟩ := hc
  have b1 := bindText_some ht n1
  have b2 := bindText_some hd n2
  have b3 := bindTextArray_of_clean n3
  have b4 := bindText_of_clean n4
  have b5 := bindText_of_clean n5
  have b6 := bindText_of_clean n6
  have b7 := bindText_of_clean n7
  have a1 := varcharAccepts_of_fits w1
  have a2 := varcharAccepts_of_fits w2
  have a3 := varcharAccepts_of_fits w3
  have a4 := varcharAccepts_of_fits w4
  have a5 := varcharAccepts_of_fits w5
  have c1' : varcharStored 255 (some t) = some t := by simp [varcharStored, c1]
  simp [projectsPut, hsel, harr, updateProject, bindBool_bool, bindInt_str id i hid, b1, b2, b3,
    b4, b5, b6, b7, a1, a2, a3, a4, a5, sqlEq, hrows, c1', c2, c3, c4, c5]

/-- C3: the conversion applied to `technologies` is the split at every comma with each
piece trimmed when the field is a string (so "Go, Rust , Zig" gives Go, Rust, Zig) and
the identity when it is a list. On a request that passes the checks of the create
handler and whose values the store accepts, `POST /projects` stores and returns a row
with the converted list; likewise `PUT /projects/:id` on an existing id. -/
theorem technologies_stored :
    (∀ str, technologiesArray (.str str) = .ok (splitTrimSpec str)) ∧
    (∀ xs, technologiesArray (.arr xs) = .ok xs) ∧
    technologiesArray (.str "Go, Rust , Zig") = .ok ["Go", "Rust", "Zig"] ∧
    (∀ (s : Store) (now : Int) (body : JObj) (file : Option String) (t d : String)
      (techs : List String),
      truthy (body.field "title") = true → truthy (body.field "description") = true →
      truthy (body.field "technologies") = true →
      prepareValue (body.field "title") = some t →
      prepareValue (body.field "description") = some d →
      technologiesArray (body.field "technologies") = .ok techs →
      projectWidths t (prepareValue (imageUrl file .null))
        (prepareValue (body.field "github_url")) (prepareValue (body.field "demo_url"))
        (prepareValue (jsOr (body.field "category") (.str "web"))) = true →
      projectClean t d techs (prepareValue (imageUrl file .null))
        (prepareValue (body.field "github_url")) (prepareValue (body.field "demo_url"))
        (prepareValue (jsOr (body.field "category") (.str "web"))) = true →
      (∀ p ∈ s.projects, p.id ≠ s.projectsSeq + 1) →
      ∃ row, (projectsPost s now body file).2 = ⟨201, .project row⟩ ∧
        row.technologies = techs ∧ row ∈ (projectsPost s now body file).1.projects) ∧
    (∀ (s : Store) (now : Int) (id : String) (body : JObj) (file : Option String) (i : Int)
      (e : Project) (rest : List Project) (t d : String) (techs : List String),
      parseInt4 id = some i →
      s.projects.filter (fun p => p.id == i) = e :: rest →
      prepareValue (body.field "title") = some t →
      prepareValue (body.field "description") = some d →
      technologiesArray (body.field "technologies") = .ok techs →
      projectWidths t (prepareValue (imageUrl file (textValue e.image_url)))
        (prepareValue (body.field "github_url")) (prepareValue (body.field "demo_url"))
        (prepareValue (body.field "category")) = true →
      projectClean t d techs (prepareValue (imageUrl file (textValue e.image_url)))
        (prepareValue (body.field "github_url")) (prepareValue (body.field "demo_url"))
        (prepareValue (body.field "category")) = true →
      ∃ row, (projectsPut s now id body file).2 = ⟨200, .project row⟩ ∧
        row.technologies = techs ∧ row ∈ (projectsPut s now id body file).1.projects) := by
  refine ⟨technologiesArray_str, fun _ => rfl, by decide, ?_, ?_⟩
  · intro s now body file t d techs htitle hdesc htech ht hd harr hw hc hfresh
    obtain ⟨row, hrow, hresp, hstore⟩ :=
      projectsPost_ok s now body file t d techs htitle hdesc htech ht hd harr hw hc hfresh
    exact ⟨row, hresp, by rw [hrow], by rw [hstore]; simp⟩
  · intro s now id body file i e rest t d techs hid hrows ht hd harr hw hc
    obtain ⟨set, hset, hresp, hstore⟩ :=
      projectsPut_ok s now id body file i e rest t d techs hid hrows ht hd harr hw hc
    have he : e ∈ s.projects.filter (fun p => p.id == i) := by rw [hrows]; simp
    have hei : e.id = i := by simpa using (List.mem_filter.1 he).2
    refine ⟨set e, hresp, by rw [hset], ?_⟩
    rw [hstore]
    exact List.mem_map.2 ⟨e, (List.mem_filter.1 he).1, by simp [hei]⟩

/-- C3 at the form with technologies "Go, Rust , Zig": created on an empty database and
written over project 1 of the sample store. -/
theorem technologies_stored_witness :
    technologiesArray (goRustZigBody.field "technologies") = .ok ["Go", "Rust", "Zig"] ∧
    (∃ row, (projectsPost emptyStore 5 goRustZigBody none).2 = ⟨201, .project row⟩ ∧
      row.technologies = ["Go", "Rust", "Zig"] ∧
      row ∈ (projectsPost emptyStore 5 goRustZigBody none).1.projects) ∧
    (∃ row, (projectsPut sampleStore 5 "1" goRustZigBody none).2 = ⟨200, .project row⟩ ∧
      row.technologies = ["Go", "Rust", "Zig"] ∧
      row ∈ (projectsPut sampleStore 5 "1" goRustZigBody none).1.projects) :=
  ⟨technologies_stored.1 "Go, Rust , Zig" |>.trans (by decide),
   technologies_stored.2.2.2.1 emptyStore 5 goRustZigBody none "Tools" "Small tools"
     ["Go", "Rust", "Zig"] (by decide) (by decide) (by decide) (by decide) (by decide)
     (by decide) (by decide) (by decide) (by decide),
   technologies_stored.2.2.2.2 sampleStore 5 "1" goRustZigBody none 1 sampleProject []
     "Tools" "Small tools" ["Go", "Rust", "Zig"] (by decide) (by decide) (by decide)
     (by decide) (by decide) (by decide) (by decide)⟩

/-- C4, as stated, fails: creating "Web" again is answered with status 400, which is
`BadRequest` and not `Conflict`. -/
theorem categoriesPost_duplicate_not_conflict :
    (∃ c ∈ webStore.categories, some c.name = prepareValue (webBody.field "name")) ∧
    truthy (webBody.field "color") = true ∧
    (categoriesPost webStore 3 webBody).2.status = 400 ∧
    errorKind (categoriesPost webStore 3 webBody).2 = some .BadRequest ∧
    errorKind (categoriesPost webStore 3 webBody).2 ≠ some .Conflict := by
  decide

/-- C4, amended: creating a category whose name a stored category already has is
answered with status 400 (`BadRequest`), whatever the color, and the store is unchanged. -/
theorem categoriesPost_duplicate_rejected (s : Store) (now : Int) (body : JObj) (n : String)
    (hex : ∃ c ∈ s.categories, c.name = n)
    (hname : prepareValue (body.field "name") = some n) :
    (categoriesPost s now body).2.status = 400 ∧
    errorKind (categoriesPost s now body).2 = some .BadRequest ∧
    (categoriesPost s now body).1 = s := by
  obtain ⟨c, hc, hcn⟩ := hex
  have hpos : (selectCategoryIdsByName s (body.field "name")).length > 0 := by
    have : c.id ∈ selectCategoryIdsByName s (body.field "name") := by
      simp only [selectCategoryIdsByName, hname]
      exact List.mem_map.2 ⟨c, List.mem_filter.2 ⟨hc, by simp [sqlEq, hcn]⟩, rfl⟩
    exact List.length_pos_of_mem this
  unfold categoriesPost
  simp only []
  split_ifs
  · exact ⟨rfl, rfl, rfl⟩
  · exact ⟨rfl, rfl, rfl⟩

/-- C4 at the store that holds "Web". -/
theorem categoriesPost_duplicate_rejected_witness :
    (categoriesPost webStore 3 webBody).2.status = 400 ∧
    errorKind (categoriesPost webStore 3 webBody).2 = some .BadRequest ∧
    (categoriesPost webStore 3 webBody).1 = webStore :=
  categoriesPost_duplicate_rejected webStore 3 webBody "Web" ⟨webCategory, by decide, rfl⟩
    (by decide)

/-- SQL equality of two non-null values. -/
theorem sqlEq_some_some {α : Type} [BEq α] (a b : α) : sqlEq (some a) (some b) = (a == b) := rfl

/-- C5, as stated, fails: deleting "Web" while a project is filed under it is answered
with status 400, which is `BadRequest` and not `Conflict`. -/
theorem categoriesDelete_in_use_not_conflict :
    webCategory ∈ webStore.categories ∧ parseInt4 "1" = some webCategory.id ∧
    (∃ p ∈ webStore.projects, p.category = some webCategory.name) ∧
    (categoriesDelete webStore "1").2.status = 400 ∧
    errorKind (categoriesDelete webStore "1").2 = some .BadRequest ∧
    errorKind (categoriesDelete webStore "1").2 ≠ some .Conflict := by
  decide

/-- C5, amended: for the category `c` with id `i`, `DELETE /categories/i` is answered
with status 400 (`BadRequest`) and changes nothing when some project has `category`
equal to the name of `c`, and otherwise answers 200 and removes `c`, and only `c`, from
the table. -/
theorem categoriesDelete_guard (s : Store) (id : String) (i : Int) (c : Category)
    (hid : parseInt4 id = some i)
    (hrows : s.categories.filter (fun x => x.id == i) = [c]) :
    ((∃ p ∈ s.projects, p.category = some c.name) →
      (categoriesDelete s id).2.status = 400 ∧
      errorKind (categoriesDelete s id).2 = some .BadRequest ∧
      (categoriesDelete s id).1 = s) ∧
    ((∀ p ∈ s.projects, p.category ≠ some c.name) →
      (categoriesDelete s id).2 = ⟨200, .message "Categoría eliminada correctamente"⟩ ∧
      c ∉ (categoriesDelete s id).1.categories ∧
      (categoriesDelete s id).1.categories = s.categories.filter (fun x => x.id != i) ∧
      (categoriesDelete s id).1.projects = s.projects) := by
  have hb := bindInt_str id i hid
  have hsel : selectCategoryIds s (.str id) = .ok [c.id] := by
    simp [selectCategoryIds, hb, sqlEq_some_some, hrows]
  have hcount : countProjectsUsingCategory s (.str id)
      = .ok ((s.projects.filter (fun p => sqlEq p.category (some c.name))).length) := by
    simp [countProjectsUsingCategory, hb, sqlEq_some_some, hrows]
  have hci : c.id = i := by
    have : c ∈ s.categories.filter (fun x => x.id == i) := by rw [hrows]; simp
    simpa using (List.mem_filter.1 this).2
  constructor
  · rintro ⟨p, hp, hpc⟩
    have hpos : (s.projects.filter (fun p => sqlEq p.category (some c.name))).length > 0 :=
      List.length_pos_of_mem (List.mem_filter.2 ⟨hp, by simp [sqlEq, hpc]⟩)
    simp [categoriesDelete, hsel, hcount, hpos, errorKind]
  · intro hnone
    have hzero : s.projects.filter (fun p => sqlEq p.category (some c.name)) = [] := by
      rw [List.filter_eq_nil_iff]
      intro p hp
      have := hnone p hp
      cases hcat : p.category <;> simp_all [sqlEq]
    simp [categoriesDelete, hsel, hcount, hzero, deleteCategory, hb, sqlEq_some_some, hci, bne]

/-- C5 at the store with a project under "Web" and at the store without one. -/
theorem categoriesDelete_guard_witness :
    ((categoriesDelete webStore "1").2.status = 400 ∧
      errorKind (categoriesDelete webStore "1").2 = some .BadRequest ∧
      (categoriesDelete webStore "1").1 = webStore) ∧
    ((categoriesDelete webOnlyStore "1").2
        = ⟨200, .message "Categoría eliminada correctamente"⟩ ∧
      webCategory ∉ (categoriesDelete webOnlyStore "1").1.categories ∧
      (categoriesDelete webOnlyStore "1").1.categories
        = webOnlyStore.categories.filter (fun x => x.id != 1) ∧
      (categoriesDelete webOnlyStore "1").1.projects = webOnlyStore.projects) :=
  ⟨(categoriesDelete_guard webStore "1" 1 webCategory (by decide) (by decide)).1
      ⟨webProject, by decide, rfl⟩,
   (categoriesDelete_guard webOnlyStore "1" 1 webCategory (by decide) (by decide)).2
      (by decide)⟩

/-- C6: for an existing project id `p`, `DELETE /projects/p` answers 200, removes the
project, and leaves exactly the comments whose `project_id` is not `p`, each unchanged and
in order; so no comment of `p` remains, approved or not, and the public listing for `p`
is the empty list. -/
theorem projectsDelete_cascades (s : Store) (id q : String) (p : Int)
    (hid : parseInt4 id = some p) (hq : parseInt4 q = some p)
    (hex : ∃ x ∈ s.projects, x.id = p) :
    (projectsDelete s id).2 = ⟨200, .message "Proyecto eliminado correctamente"⟩ ∧
    (projectsDelete s id).1.projects = s.projects.filter (fun x => x.id != p) ∧
    (projectsDelete s id).1.comments = s.comments.filter (fun c => c.project_id != some p) ∧
    (∀ c ∈ (projectsDelete s id).1.comments, c.project_id ≠ some p) ∧
    commentsGetProject (projectsDelete s id).1 q = ⟨200, .comments []⟩ := by
  obtain ⟨x, hx, hxp⟩ := hex
  have hb := bindInt_str id p hid
  have hgone : ∀ c : Comment,
      (s.projects.filter (fun y => sqlEq (some y.id) (some p))).any
        (fun y => sqlEq c.project_id (some y.id)) = (c.project_id == some p) := by
    intro c
    rw [Bool.eq_iff_iff]
    simp only [List.any_eq_true, List.mem_filter, sqlEq_some_some, beq_iff_eq, sqlEq_some_iff]
    constructor
    · rintro ⟨y, ⟨_, hy⟩, hc⟩
      rw [hc, hy]
    · intro hc
      exact ⟨x, ⟨hx, hxp⟩, by rw [hc, hxp]⟩
  have hne : s.projects.filter (fun y => sqlEq (some y.id) (some p)) ≠ [] := by
    intro h
    have : x ∈ s.projects.filter (fun y => sqlEq (some y.id) (some p)) :=
      List.mem_filter.2 ⟨hx, by simp [sqlEq_some_some, hxp]⟩
    rw [h] at this
    simp at this
  obtain ⟨y, ys, hys⟩ := List.exists_cons_of_ne_nil hne
  have hkey : projectsDelete s id =
      ({ s with projects := s.projects.filter (fun x => x.id != p),
                comments := s.comments.filter (fun c => c.project_id != some p) },
       ⟨200, .message "Proyecto eliminado correctamente"⟩) := by
    simp only [projectsDelete, deleteProject, hb]
    simp only [hgone]
    simp only [hys]
    simp [bne, sqlEq_some_some]
  have hresp : (projectsDelete s id).2 = ⟨200, .message "Proyecto eliminado correctamente"⟩ := by
    rw [hkey]
  have hprojects : (projectsDelete s id).1.projects = s.projects.filter (fun x => x.id != p) := by
    rw [hkey]
  have hcomments : (projectsDelete s id).1.comments
      = s.comments.filter (fun c => c.project_id != some p) := by
    rw [hkey]
  have hnot : ∀ c ∈ (projectsDelete s id).1.comments, c.project_id ≠ some p := by
    intro c hc
    rw [hcomments] at hc
    simpa using (List.mem_filter.1 hc).2
  refine ⟨hresp, hprojects, hcomments, hnot, ?_⟩
  rw [commentsGetProject_eq _ q p hq]
  have hempty : (projectsDelete s id).1.comments.filter
      (fun c => sqlEq c.project_id (some p) && sqlEq c.approved (some true)) = [] := by
    rw [List.filter_eq_nil_iff]
    intro c hc
    have := hnot c hc
    cases hpc : c.project_id <;> simp_all [sqlEq]
  rw [hempty]
  rfl

/-- C6 at the store with one project and one comment on it. -/
theorem projectsDelete_cascades_witness :
    (projectsDelete moderationStore "1").2
      = ⟨200, .message "Proyecto eliminado correctamente"⟩ ∧
    (projectsDelete moderationStore "1").1.projects
      = moderationStore.projects.filter (fun x => x.id != 1) ∧
    (projectsDelete moderationStore "1").1.comments
      = moderationStore.comments.filter (fun c => c.project_id != some 1) ∧
    (∀ c ∈ (projectsDelete moderationStore "1").1.comments, c.project_id ≠ some 1) ∧
    commentsGetProject (projectsDelete moderationStore "1").1 " 1" = ⟨200, .comments []⟩ :=
  projectsDelete_cascades moderationStore "1" " 1" 1 (by decide) (by decide)
    ⟨sampleProject, by decide, rfl⟩

/-- Where `bcrypt.compare` resolves to false the login answers as for an unknown email:
status 401 with the same body. -/
theorem login_same_answer_on_false (compare : JVal → String → Except String Bool)
    (sign : Int → String → Option String → Except String String)
    (s : Store) (unknown known : JObj) (u : User) (rest : List User)
    (he1 : truthy (unknown.field "email") = true)
    (hp1 : truthy (unknown.field "password") = true)
    (he2 : truthy (known.field "email") = true)
    (hp2 : truthy (known.field "password") = true)
    (hnone : selectUsersByEmail s (unknown.field "email") = .ok [])
    (hsome : selectUsersByEmail s (known.field "email") = .ok (u :: rest))
    (hbad : compare (known.field "password") u.password = .ok false) :
    login compare sign s unknown = login compare sign s known ∧
    login compare sign s known = ⟨401, .message "Credenciales inválidas"⟩ := by
  have h1 : login compare sign s unknown = ⟨401, .message "Credenciales inválidas"⟩ := by
    simp [login, he1, hp1, hnone]
  have h2 : login compare sign s known = ⟨401, .message "Credenciales inválidas"⟩ := by
    simp [login, he2, hp2, hsome, hbad]
  exact ⟨h1.trans h2.symm, h2⟩

/-- C7, the defect: where `bcrypt.compare` rejects instead of resolving, as it does on a
password that is not a string, the login answers 500 for an email that a user has and
401 for an email that no user has, so the response tells whether the email exists. -/
theorem login_existence_leak (compare : JVal → String → Except String Bool)
    (sign : Int → String → Option String → Except String String)
    (s : Store) (unknown known : JObj) (u : User) (rest : List User)
    (he1 : truthy (unknown.field "email") = true)
    (hp1 : truthy (unknown.field "password") = true)
    (he2 : truthy (known.field "email") = true)
    (hp2 : truthy (known.field "password") = true)
    (hnone : selectUsersByEmail s (unknown.field "email") = .ok [])
    (hsome : selectUsersByEmail s (known.field "email") = .ok (u :: rest))
    (hrej : ∃ e, compare (known.field "password") u.password = .error e) :
    login compare sign s unknown = ⟨401, .message "Credenciales inválidas"⟩ ∧
    login compare sign s known = internalError ∧
    errorKind (login compare sign s unknown) = some .Unauthorized ∧
    errorKind (login compare sign s known) = some .InternalError ∧
    login compare sign s unknown ≠ login compare sign s known := by
  obtain ⟨e, hrej⟩ := hrej
  have h1 : login compare sign s unknown = ⟨401, .message "Credenciales inválidas"⟩ := by
    simp [login, he1, hp1, hnone]
  have h2 : login compare sign s known = internalError := by
    simp [login, he2, hp2, hsome, hrej]
  refine ⟨h1, h2, by rw [h1]; rfl, by rw [h2]; rfl, ?_⟩
  rw [h1, h2]
  decide

/-- C7 at the administrator and at an unknown address, both with the password 123. -/
theorem login_existence_leak_witness :
    login toyCompare toySign adminStore numericPasswordUnknownBody
      = ⟨401, .message "Credenciales inválidas"⟩ ∧
    login toyCompare toySign adminStore numericPasswordBody = internalError ∧
    errorKind (login toyCompare toySign adminStore numericPasswordUnknownBody)
      = some .Unauthorized ∧
    errorKind (login toyCompare toySign adminStore numericPasswordBody)
      = some .InternalError ∧
    login toyCompare toySign adminStore numericPasswordUnknownBody
      ≠ login toyCompare toySign adminStore numericPasswordBody :=
  login_existence_leak toyCompare toySign adminStore numericPasswordUnknownBody
    numericPasswordBody adminUser [] (by decide) (by decide) (by decide) (by decide)
    (by decide) (by decide) ⟨"Illegal arguments", by decide⟩

/-- The query of the project list answers with its `WHERE` clause applied to the table,
newest first, when it sends no category or one that PostgreSQL accepts as text. -/
theorem projectsGet_spec (s : Store) (query : JObj)
    (h : truthy (query.field "category") = false ∨
      cleanText (prepareValue (query.field "category")) = true) :
    ∃ rows, projectsGet s query = ⟨200, .projects rows⟩ ∧
      rows.Perm (s.projects.filter
        (projectsWhere (query.field "category") (query.field "featured"))) ∧
      rows.Pairwise (fun a b => b.created_at ≤ a.created_at) := by
  have hsel : selectProjectsWhere s (query.field "category") (query.field "featured") =
      .ok ((s.projects.filter
        (projectsWhere (query.field "category") (query.field "featured"))).insertionSort
          Project.newerFirst) := by
    unfold selectProjectsWhere
    rcases h with h | h
    · simp [h]
    · by_cases ht : truthy (query.field "category") = true
      · simp [ht, bindText_of_clean h]
      · simp [ht]
  refine ⟨_, by simp [projectsGet, hsel], List.perm_insertionSort _ _,
    List.sorted_insertionSort Project.newerFirst _⟩

/-- C8: `GET /projects` with `featured=true` returns exactly the projects whose featured
flag is true, restricted to `category = c` when a category `c` is given as well (a
non-empty text without U+0000); with neither parameter it returns every project; each
time newest first. -/
theorem projectsGet_filters (s : Store) (featuredOnly featuredIn unfiltered : JObj) (c : String)
    (h1 : featuredOnly.field "featured" = .str "true")
    (h1c : featuredOnly.field "category" = .undefined)
    (h2 : featuredIn.field "featured" = .str "true")
    (h2c : featuredIn.field "category" = .str c) (hc : c ≠ "") (hclean : hasNul c = false)
    (h3 : unfiltered.field "featured" = .undefined)
    (h3c : unfiltered.field "category" = .undefined) :
    (∃ rows, projectsGet s featuredOnly = ⟨200, .projects rows⟩ ∧
      rows.Perm (s.projects.filter (fun p => p.featured == some true)) ∧
      rows.Pairwise (fun a b => b.created_at ≤ a.created_at)) ∧
    (∃ rows, projectsGet s featuredIn = ⟨200, .projects rows⟩ ∧
      rows.Perm (s.projects.filter
        (fun p => p.category == some c && p.featured == some true)) ∧
      rows.Pairwise (fun a b => b.created_at ≤ a.created_at)) ∧
    (∃ rows, projectsGet s unfiltered = ⟨200, .projects rows⟩ ∧
      rows.Perm s.projects ∧
      rows.Pairwise (fun a b => b.created_at ≤ a.created_at)) := by
  have hw1 : projectsWhere (featuredOnly.field "category") (featuredOnly.field "featured")
      = fun p => p.featured == some true := by
    funext p
    cases hf : p.featured <;> simp [projectsWhere, h1, h1c, truthy, strictEqStr, sqlEq, hf]
  have hw2 : projectsWhere (featuredIn.field "category") (featuredIn.field "featured")
      = fun p => p.category == some c && p.featured == some true := by
    funext p
    cases hf : p.featured <;> cases hcat : p.category <;>
      simp [projectsWhere, h2, h2c, truthy, strictEqStr, sqlEq, hf, hcat, hc, prepareValue]
  have hw3 : projectsWhere (unfiltered.field "category") (unfiltered.field "featured")
      = fun _ => true := by
    funext p
    simp [projectsWhere, h3, h3c, truthy, strictEqStr]
  refine ⟨?_, ?_, ?_⟩
  · have := projectsGet_spec s featuredOnly (Or.inl (by rw [h1c]; rfl))
    rwa [hw1] at this
  · have := projectsGet_spec s featuredIn
      (Or.inr (by rw [h2c]; simp [prepareValue, cleanText, hclean]))
    rwa [hw2] at this
  · have := projectsGet_spec s unfiltered (Or.inl (by rw [h3c]; rfl))
    rw [hw3] at this
    simpa using this

/-- C8 at a store with three projects. -/
theorem projectsGet_filters_witness :
    (∃ rows, projectsGet catalogueStore [("featured", .str "true")] = ⟨200, .projects rows⟩ ∧
      rows.Perm (catalogueStore.projects.filter (fun p => p.featured == some true)) ∧
      rows.Pairwise (fun a b => b.created_at ≤ a.created_at)) ∧
    (∃ rows, projectsGet catalogueStore [("featured", .str "true"), ("category", .str "web")]
        = ⟨200, .projects rows⟩ ∧
      rows.Perm (catalogueStore.projects.filter
        (fun p => p.category == some "web" && p.featured == some true)) ∧
      rows.Pairwise (fun a b => b.created_at ≤ a.created_at)) ∧
    (∃ rows, projectsGet catalogueStore [] = ⟨200, .projects rows⟩ ∧
      rows.Perm catalogueStore.projects ∧
      rows.Pairwise (fun a b => b.created_at ≤ a.created_at)) :=
  projectsGet_filters catalogueStore [("featured", .str "true")]
    [("featured", .str "true"), ("category", .str "web")] [] "web"
    (by decide) (by decide) (by decide) (by decide) (by decide) (by decide) (by decide)
    (by decide)

/-- C9, as stated, fails: title, description and technologies are all present and not
empty, yet the request is answered 500 and nothing is inserted, because the title does
not fit `VARCHAR(255)`. -/
theorem projectsPost_long_title :
    truthy (longTitleBody.field "title") = true ∧
    truthy (longTitleBody.field "description") = true ∧
    truthy (longTitleBody.field "technologies") = true ∧
    (projectsPost sampleStore 5 longTitleBody none).2 = internalError ∧
    errorKind (projectsPost sampleStore 5 longTitleBody none).2 ≠ some .BadRequest ∧
    (projectsPost sampleStore 5 longTitleBody none).1.projects = sampleStore.projects := by
  decide

/-- When a required field is falsy `POST /projects` answers 400 and changes nothing. -/
theorem projectsPost_falsy (s : Store) (now : Int) (body : JObj) (file : Option String)
    (h : truthy (body.field "title") = false ∨ truthy (body.field "description") = false ∨
      truthy (body.field "technologies") = false) :
    projectsPost s now body file =
      (s, ⟨400, .message "Título, descripción y tecnologías son requeridos"⟩) := by
  unfold projectsPost
  rcases h with h | h | h <;> simp [h]

/-- When the required fields are truthy `POST /projects` answers 201 or 500. -/
theorem projectsPost_truthy_status (s : Store) (now : Int) (body : JObj) (file : Option String)
    (h1 : truthy (body.field "title") = true) (h2 : truthy (body.field "description") = true)
    (h3 : truthy (body.field "technologies") = true) :
    (projectsPost s now body file).2.status = 201 ∨
    (projectsPost s now body file).2.status = 500 := by
  unfold projectsPost
  simp only [h1, h2, h3, Bool.not_true, Bool.or_self, Bool.false_eq_true, if_false]
  split
  · right; rfl
  · split
    · right; rfl
    · left; rfl

/-- C9, amended: `POST /projects` answers 400 (`BadRequest`) exactly when title,
description or technologies is falsy, and then changes nothing. When the three are
truthy, technologies is a string or a list, the values fit the column widths and hold
no U+0000, and the projects sequence is ahead of the stored ids, it appends one project
and changes nothing else but the projects sequence: its category is the supplied one,
"web" when none is supplied; its featured flag is whether `featured` is the string
"true", so false when none is supplied; its image reference is null without an upload
and "/uploads/" followed by the stored filename with one. -/
theorem projectsPost_contract :
    (∀ (s : Store) (now : Int) (body : JObj) (file : Option String),
      (errorKind (projectsPost s now body file).2 = some .BadRequest ↔
        (truthy (body.field "title") = false ∨ truthy (body.field "description") = false ∨
          truthy (body.field "technologies") = false)) ∧
      (errorKind (projectsPost s now body file).2 = some .BadRequest →
        (projectsPost s now body file).1 = s)) ∧
    (∀ (s : Store) (now : Int) (good : JObj) (upload : Option String) (t d : String)
      (techs : List String),
      truthy (good.field "title") = true → truthy (good.field "description") = true →
      truthy (good.field "technologies") = true →
      prepareValue (good.field "title") = some t →
      prepareValue (good.field "description") = some d →
      technologiesArray (good.field "technologies") = .ok techs →
      projectWidths t (prepareValue (imageUrl upload .null))
        (prepareValue (good.field "github_url")) (prepareValue (good.field "demo_url"))
        (prepareValue (jsOr (good.field "category") (.str "web"))) = true →
      projectClean t d techs (prepareValue (imageUrl upload .null))
        (prepareValue (good.field "github_url")) (prepareValue (good.field "demo_url"))
        (prepareValue (jsOr (good.field "category") (.str "web"))) = true →
      (∀ p ∈ s.projects, p.id ≠ s.projectsSeq + 1) →
      ∃ row : Project,
        (projectsPost s now good upload).2 = ⟨201, .project row⟩ ∧
        (projectsPost s now good upload).1 =
          { s with projectsSeq := s.projectsSeq + 1, projects := s.projects ++ [row] } ∧
        row.title = t ∧ row.description = d ∧ row.technologies = techs ∧
        (∀ c, good.field "category" = .str c → c ≠ "" → row.category = some c) ∧
        (truthy (good.field "category") = false → row.category = some "web") ∧
        row.featured = some (strictEqStr (good.field "featured") "true") ∧
        (good.field "featured" = .undefined → row.featured = some false) ∧
        (upload = none → row.image_url = none) ∧
        (∀ f, upload = some f → row.image_url = some ("/uploads/" ++ f))) := by
  constructor
  · intro s now body file
    have hiff : errorKind (projectsPost s now body file).2 = some .BadRequest ↔
        (truthy (body.field "title") = false ∨ truthy (body.field "description") = false ∨
          truthy (body.field "technologies") = false) := by
      constructor
      · intro h
        by_contra hne
        simp only [not_or, Bool.not_eq_false] at hne
        rcases projectsPost_truthy_status s now body file hne.1 hne.2.1 hne.2.2 with h2 | h2 <;>
          simp [errorKind, h2] at h
      · intro h
        rw [projectsPost_falsy s now body file h]
        rfl
    exact ⟨hiff, fun h => by rw [projectsPost_falsy s now body file (hiff.1 h)]⟩
  · intro s now good upload t d techs htitle hdesc htech ht hd harr hw hc hfresh
    obtain ⟨row, hrow, hresp, hstore⟩ :=
      projectsPost_ok s now good upload t d techs htitle hdesc htech ht hd harr hw hc hfresh
    refine ⟨row, hresp, hstore, ?_⟩
    subst hrow
    refine ⟨rfl, rfl, rfl, ?_, ?_, rfl, ?_, ?_, ?_⟩
    · intro c hcat hne
      simp [hcat, jsOr, truthy, hne, prepareValue]
    · intro hcat
      simp [jsOr, hcat, prepareValue]
    · intro hf
      simp [hf, strictEqStr]
    · intro hnone
      simp [hnone, imageUrl, prepareValue]
    · intro f hf
      simp [hf, imageUrl, prepareValue]

/-- C9 at an empty form, at a form that leaves category, featured and image to their
defaults, and at a complete form with an uploaded image. -/
theorem projectsPost_contract_witness :
    (errorKind (projectsPost sampleStore 5 [] none).2 = some .BadRequest ∧
      (projectsPost sampleStore 5 [] none).1 = sampleStore) ∧
    (∃ row : Project,
      (projectsPost sampleStore 5 goRustZigBody none).2 = ⟨201, .project row⟩ ∧
      (projectsPost sampleStore 5 goRustZigBody none).1 =
        { sampleStore with projectsSeq := 2, projects := sampleStore.projects ++ [row] } ∧
      row.category = some "web" ∧ row.featured = some false ∧ row.image_url = none) ∧
    (∃ row : Project,
      (projectsPost sampleStore 5 fullProjectBody (some "project-1.png")).2
        = ⟨201, .project row⟩ ∧
      row.category = some "backend" ∧ row.featured = some true ∧
      row.image_url = some "/uploads/project-1.png") := by
  refine ⟨?_, ?_, ?_⟩
  · have h := (projectsPost_contract.1 sampleStore 5 [] none).1.2 (Or.inl (by decide))
    exact ⟨h, (projectsPost_contract.1 sampleStore 5 [] none).2 h⟩
  · obtain ⟨row, hresp, hstore, _, _, _, _, hweb, _, hfeat, himg, _⟩ :=
      projectsPost_contract.2 sampleStore 5 goRustZigBody none "Tools" "Small tools"
        ["Go", "Rust", "Zig"] (by decide) (by decide) (by decide) (by decide) (by decide)
        (by decide) (by decide) (by decide) (by decide)
    exact ⟨row, hresp, hstore, hweb (by decide), hfeat (by decide), himg rfl⟩
  · obtain ⟨row, hresp, _, _, _, _, hcat, _, hfeat, _, _, himg⟩ :=
      projectsPost_contract.2 sampleStore 5 fullProjectBody (some "project-1.png") "Tools"
        "Small tools" ["Go", "Rust"] (by decide) (by decide) (by decide) (by decide)
        (by decide) (by decide) (by decide) (by decide) (by decide)
    exact ⟨row, hresp, hcat "backend" (by decide) (by decide), by rw [hfeat]; decide,
      himg "project-1.png" rfl⟩

/-- A nullable text column read into JavaScript and sent back is itself. -/
theorem prepareValue_textValue (v : Option String) : prepareValue (textValue v) = v := by
  cases v <;> rfl

/-- C10, as stated, fails in both halves. The id 2147483648 is the id of no project, yet
the request is answered 500 and not `NotFound`, because the id is outside the column
type. And project 1 exists and no image is uploaded, yet a complete payload whose title
has 256 characters is answered 500 and the row keeps its old values. -/
theorem projectsPut_refused_by_column_types :
    ((∀ p ∈ galleryStore.projects, p.id ≠ 2147483648) ∧ parseInt4 "2147483648" = none ∧
      projectsPut galleryStore 50 "2147483648" fullProjectBody none
        = (galleryStore, internalError) ∧
      errorKind (projectsPut galleryStore 50 "2147483648" fullProjectBody none).2
        ≠ some .NotFound) ∧
    ((∃ p ∈ galleryStore.projects, parseInt4 "1" = some p.id) ∧
      technologiesArray (longTitleFullBody.field "technologies") = .ok ["Go", "Rust"] ∧
      projectsPut galleryStore 50 "1" longTitleFullBody none = (galleryStore, internalError)) := by
  decide

/-- C10, amended. On an id that reads as an integer that no project has,
`PUT /projects/:id` answers 404 (`NotFound`) and changes nothing. On an existing id,
with no uploaded image, a title and a description that are not null, technologies that
is a string or a list, and values that fit the column widths and hold no U+0000, it
answers 200 with the row in which title, description, github_url, demo_url and category
are the payload's values (null when absent), technologies is the converted list,
featured is whether `featured` is the string "true", updated_at is the current time and
image_url is what the row had before; the rows with another id and everything else in
the store are unchanged. -/
theorem projectsPut_contract :
    (∀ (s : Store) (now : Int) (missing : String) (body : JObj) (file : Option String)
      (m : Int),
      parseInt4 missing = some m → (∀ p ∈ s.projects, p.id ≠ m) →
      projectsPut s now missing body file = (s, ⟨404, .message "Proyecto no encontrado"⟩) ∧
      errorKind (projectsPut s now missing body file).2 = some .NotFound) ∧
    (∀ (s : Store) (now : Int) (id : String) (payload : JObj) (i : Int) (e : Project)
      (rest : List Project) (t d : String) (techs : List String),
      parseInt4 id = some i →
      s.projects.filter (fun p => p.id == i) = e :: rest →
      prepareValue (payload.field "title") = some t →
      prepareValue (payload.field "description") = some d →
      technologiesArray (payload.field "technologies") = .ok techs →
      projectWidths t e.image_url (prepareValue (payload.field "github_url"))
        (prepareValue (payload.field "demo_url"))
        (prepareValue (payload.field "category")) = true →
      projectClean t d techs e.image_url (prepareValue (payload.field "github_url"))
        (prepareValue (payload.field "demo_url"))
        (prepareValue (payload.field "category")) = true →
      ∃ row : Project,
        (projectsPut s now id payload none).2 = ⟨200, .project row⟩ ∧
        row = { e with
          title := t, description := d, technologies := techs,
          github_url := prepareValue (payload.field "github_url"),
          demo_url := prepareValue (payload.field "demo_url"),
          category := prepareValue (payload.field "category"),
          featured := some (strictEqStr (payload.field "featured") "true"),
          updated_at := now } ∧
        row.image_url = e.image_url ∧ row.id = i ∧
        (projectsPut s now id payload none).1 =
          { s with projects := s.projects.map (fun p => if p.id == i then { p with
            title := t, description := d, technologies := techs, image_url := e.image_url,
            github_url := prepareValue (payload.field "github_url"),
            demo_url := prepareValue (payload.field "demo_url"),
            category := prepareValue (payload.field "category"),
            featured := some (strictEqStr (payload.field "featured") "true"),
            updated_at := now } else p) }) := by
  constructor
  · intro s now missing body file m hm habsent
    have hsel : selectProjects s (.str missing) = .ok [] := by
      simp only [selectProjects, bindInt_str missing m hm, sqlEq_some_some]
      congr 1
      rw [List.filter_eq_nil_iff]
      intro p hp
      simpa using habsent p hp
    have : projectsPut s now missing body file = (s, ⟨404, .message "Proyecto no encontrado"⟩) := by
      simp [projectsPut, hsel]
    exact ⟨this, by rw [this]; rfl⟩
  · intro s now id payload i e rest t d techs hid hrows ht hd harr hw hc
    have hei : e.id = i := by
      have : e ∈ s.projects.filter (fun p => p.id == i) := by rw [hrows]; simp
      simpa using (List.mem_filter.1 this).2
    have hw' : projectWidths t (prepareValue (imageUrl none (textValue e.image_url)))
        (prepareValue (payload.field "github_url")) (prepareValue (payload.field "demo_url"))
        (prepareValue (payload.field "category")) = true := by
      simpa [imageUrl, prepareValue_textValue] using hw
    have hc' : projectClean t d techs (prepareValue (imageUrl none (textValue e.image_url)))
        (prepareValue (payload.field "github_url")) (prepareValue (payload.field "demo_url"))
        (prepareValue (payload.field "category")) = true := by
      simpa [imageUrl, prepareValue_textValue] using hc
    obtain ⟨set, hset, hresp, hstore⟩ :=
      projectsPut_ok s now id payload none i e rest t d techs hid hrows ht hd harr hw' hc'
    have hsetid : ∀ p, (set p).id = p.id := by intro p; rw [hset]
    refine ⟨set e, hresp, ?_, ?_, ?_, ?_⟩
    · rw [hset]; simp [imageUrl, prepareValue_textValue]
    · rw [hset]; simp [imageUrl, prepareValue_textValue]
    · rw [hsetid, hei]
    · rw [hstore, hset]
      simp [imageUrl, prepareValue_textValue]

/-- C10 at a store with two projects: an id no project has, and project 1 updated with a
complete payload and no upload. -/
theorem projectsPut_contract_witness :
    (projectsPut galleryStore 50 "7" noTechnologiesBody none
        = (galleryStore, ⟨404, .message "Proyecto no encontrado"⟩) ∧
      errorKind (projectsPut galleryStore 50 "7" noTechnologiesBody none).2 = some .NotFound) ∧
    ∃ row : Project,
      (projectsPut galleryStore 50 "1" fullProjectBody none).2 = ⟨200, .project row⟩ ∧
      row = ⟨1, "Tools", "Small tools", ["Go", "Rust"], some "/uploads/project-1.png",
        some "https://example.com/src", some "https://example.com", some "backend",
        some true, 10, 50⟩ ∧
      (projectsPut galleryStore 50 "1" fullProjectBody none).1 =
        { galleryStore with projects :=
          [row, ⟨2, "B", "b", ["JS"], none, none, none, some "web", some true, 30, 30⟩] } := by
  have h404 := projectsPut_contract.1 galleryStore 50 "7" noTechnologiesBody none 7
    (by decide) (by decide)
  obtain ⟨row, hresp, hrow, _, _, hstore⟩ :=
    projectsPut_contract.2 galleryStore 50 "1" fullProjectBody 1
      ⟨1, "A", "a", ["Go"], some "/uploads/project-1.png", none, none, some "web",
        some false, 10, 10⟩
      [] "Tools" "Small tools" ["Go", "Rust"]
      (by decide) (by decide) (by decide) (by decide) (by decide) (by decide) (by decide)
  refine ⟨h404, row, hresp, ?_, ?_⟩
  · rw [hrow]; decide
  · rw [hstore, hrow]; decide

/-- C12: a `featured` query value other than the string "true" constrains nothing:
`GET /projects` answers as it does for the same request with `featured` omitted, so with
`featured=false` and no category every project is listed, the featured ones included. -/
theorem projectsGet_featured_only_true (s : Store) (query omitted : JObj)
    (hcat : query.field "category" = omitted.field "category")
    (homit : omitted.field "featured" = .undefined)
    (hne : query.field "featured" ≠ .str "true") :
    projectsGet s query = projectsGet s omitted ∧
    (truthy (query.field "category") = false →
      ∃ rows, projectsGet s query = ⟨200, .projects rows⟩ ∧ rows.Perm s.projects ∧
        ∀ p ∈ s.projects, p.featured = some true → p ∈ rows) := by
  have hfalse : strictEqStr (query.field "featured") "true" = false := by
    cases hf : query.field "featured" with
    | str t =>
      have : t ≠ "true" := fun h => hne (by rw [hf, h])
      simp [strictEqStr, this]
    | _ => rfl
  have hwhere : projectsWhere (query.field "category") (query.field "featured")
      = projectsWhere (omitted.field "category") (omitted.field "featured") := by
    funext p
    unfold projectsWhere
    rw [hfalse, homit, hcat]
    rfl
  have hsel : selectProjectsWhere s (query.field "category") (query.field "featured")
      = selectProjectsWhere s (omitted.field "category") (omitted.field "featured") := by
    unfold selectProjectsWhere
    rw [hwhere, hcat]
  refine ⟨by unfold projectsGet; simp only [hsel], ?_⟩
  intro hc
  obtain ⟨rows, hrows, hperm, _⟩ := projectsGet_spec s query (Or.inl hc)
  have hall : projectsWhere (query.field "category") (query.field "featured") = fun _ => true := by
    funext p
    simp [projectsWhere, hfalse, hc]
  rw [hall] at hperm
  have hperm' : rows.Perm s.projects := by simpa using hperm
  exact ⟨rows, hrows, hperm', fun p hp _ => hperm'.mem_iff.2 hp⟩

/-- C12 at `featured=false` on a store with featured and non-featured projects. -/
theorem projectsGet_featured_only_true_witness :
    projectsGet catalogueStore [("featured", .str "false")] = projectsGet catalogueStore [] ∧
    ∃ rows, projectsGet catalogueStore [("featured", .str "false")] = ⟨200, .projects rows⟩ ∧
      rows.Perm catalogueStore.projects ∧
      ∀ p ∈ catalogueStore.projects, p.featured = some true → p ∈ rows :=
  ⟨(projectsGet_featured_only_true catalogueStore [("featured", .str "false")] [] (by decide)
      (by decide) (by decide)).1,
   (projectsGet_featured_only_true catalogueStore [("featured", .str "false")] [] (by decide)
      (by decide) (by decide)).2 (by decide)⟩

/-- C13: `PUT /projects/:id` does not validate its payload. On an existing id and a body
without `technologies` the conversion throws, the handler answers 500 (`InternalError`,
not `BadRequest`) and the store is unchanged, whatever the other fields and whether or
not an image was uploaded; the same body sent to `POST /projects` is answered 400
(`BadRequest`) with the store unchanged. -/
theorem projectsPut_unvalidated (s : Store) (now : Int) (id : String) (body : JObj)
    (file : Option String) (i : Int)
    (hid : parseInt4 id = some i)
    (hex : ∃ p ∈ s.projects, p.id = i)
    (habsent : body.field "technologies" = .undefined) :
    (∃ e, technologiesArray (body.field "technologies") = .error e) ∧
    projectsPut s now id body file = (s, internalError) ∧
    errorKind (projectsPut s now id body file).2 = some .InternalError ∧
    errorKind (projectsPut s now id body file).2 ≠ some .BadRequest ∧
    (projectsPost s now body file).1 = s ∧
    (projectsPost s now body file).2.status = 400 ∧
    errorKind (projectsPost s now body file).2 = some .BadRequest := by
  obtain ⟨p, hp, hpi⟩ := hex
  have hne : s.projects.filter (fun x => sqlEq (some x.id) (some i)) ≠ [] := by
    intro h
    have : p ∈ s.projects.filter (fun x => sqlEq (some x.id) (some i)) :=
      List.mem_filter.2 ⟨hp, by simp [sqlEq_some_some, hpi]⟩
    rw [h] at this
    simp at this
  obtain ⟨y, ys, hys⟩ := List.exists_cons_of_ne_nil hne
  have hsel : selectProjects s (.str id) = .ok (y :: ys) := by
    simp only [selectProjects, bindInt_str id i hid, hys]
  have hput : projectsPut s now id body file = (s, internalError) := by
    simp [projectsPut, hsel, habsent, technologiesArray]
  have hpost := projectsPost_falsy s now body file
    (Or.inr (Or.inr (by rw [habsent]; rfl)))
  refine ⟨⟨_, by rw [habsent]; rfl⟩, hput, by rw [hput]; rfl,
    by rw [hput]; simp [errorKind, internalError], ?_, ?_, ?_⟩
  · rw [hpost]
  · rw [hpost]
  · rw [hpost]; rfl

/-- C13 at project 1 of the two-project store. -/
theorem projectsPut_unvalidated_witness :
    (∃ e, technologiesArray (noTechnologiesBody.field "technologies") = .error e) ∧
    projectsPut galleryStore 50 "1" noTechnologiesBody none = (galleryStore, internalError) ∧
    errorKind (projectsPut galleryStore 50 "1" noTechnologiesBody none).2
      = some .InternalError ∧
    errorKind (projectsPut galleryStore 50 "1" noTechnologiesBody none).2
      ≠ some .BadRequest ∧
    (projectsPost galleryStore 50 noTechnologiesBody none).1 = galleryStore ∧
    (projectsPost galleryStore 50 noTechnologiesBody none).2.status = 400 ∧
    errorKind (projectsPost galleryStore 50 noTechnologiesBody none).2 = some .BadRequest :=
  projectsPut_unvalidated galleryStore 50 "1" noTechnologiesBody none 1 (by decide)
    ⟨⟨1, "A", "a", ["Go"], some "/uploads/project-1.png", none, none, some "web",
        some false, 10, 10⟩, by decide, rfl⟩
    (by decide)

/-- Uniqueness only looks at the rows of `categories` and `users`. -/
theorem Store.unique_of_eq {s s' : Store} (hc : s'.categories = s.categories)
    (hu : s'.users = s.users) (h : s.unique) : s'.unique := by
  unfold Store.unique at *
  rw [hc, hu]
  exact h

/-- Appending a row whose key no stored row has keeps the keys distinct. -/
theorem nodup_map_append_singleton {α β : Type} [DecidableEq β] (f : α → β) (l : List α)
    (a : α) (h : (l.map f).Nodup) (hnew : ∀ x ∈ l, f x ≠ f a) : ((l ++ [a]).map f).Nodup := by
  rw [List.map_append, List.nodup_append]
  refine ⟨h, by simp, ?_⟩
  intro b hb hb'
  simp only [List.map_cons, List.map_nil, List.mem_singleton] at hb'
  obtain ⟨x, hx, rfl⟩ := List.mem_map.1 hb
  exact hnew x hx hb'

/-- The category `INSERT` keeps names and emails unique, whether it is accepted or not. -/
theorem insertCategory_unique (s : Store) (now : Int) (name color description : JVal)
    (h : s.unique) : (insertCategory s now name color description).1.unique := by
  unfold insertCategory
  split
  · simp only []
    split_ifs with h1
    · exact h
    · split
      · split_ifs with h2
        · exact Store.unique_of_eq rfl rfl h
        · refine ⟨?_, h.2⟩
          apply nodup_map_append_singleton _ _ _ h.1
          intro x hx
          simp only [Bool.not_eq_true, List.any_eq_false, Bool.or_eq_true, beq_iff_eq,
            not_or] at h2
          exact (h2 x hx).2
      · exact Store.unique_of_eq rfl rfl h
  · exact h

/-- `POST /categories` keeps names and emails unique. -/
theorem categoriesPost_unique (s : Store) (now : Int) (body : JObj) (h : s.unique) :
    (categoriesPost s now body).1.unique := by
  unfold categoriesPost
  simp only []
  split_ifs
  · exact h
  · exact h
  · have := insertCategory_unique s now (body.field "name") (body.field "color")
      (jsOr (body.field "description") .null) h
    split <;> simp_all

/-- `DELETE /categories/:id` keeps names and emails unique. -/
theorem categoriesDelete_unique (s : Store) (id : String) (h : s.unique) :
    (categoriesDelete s id).1.unique := by
  unfold categoriesDelete
  split
  · exact h
  · split_ifs
    · exact h
    · split
      · exact h
      · split_ifs
        · exact h
        · split
          · exact h
          · next s1 rows hdel =>
            simp only [deleteCategory] at hdel
            split at hdel
            · cases hdel
            · simp only [Except.ok.injEq, Prod.mk.injEq] at hdel
              obtain ⟨rfl, _⟩ := hdel
              exact ⟨(List.filter_sublist _).map _ |>.nodup h.1, h.2⟩

/-- Rewriting the key of at most one row to a key that no other row has keeps the keys
distinct. -/
theorem nodup_map_update {α β : Type} [DecidableEq β] (f : α → β) (hit : α → Bool)
    (set : α → α) (k : β) (hset : ∀ a, f (set a) = k) :
    ∀ l : List α, (l.map f).Nodup → (l.filter hit).length ≤ 1 →
      ((l.filter hit).length > 0 → ∀ a ∈ l, hit a = false → f a ≠ k) →
      ((l.map (fun a => if hit a then set a else a)).map f).Nodup := by
  intro l
  induction l with
  | nil => intro _ _ _; simp
  | cons a l ih =>
    intro hnd hle hother
    rw [List.map_cons, List.nodup_cons] at hnd
    by_cases ha : hit a = true
    · have hnil : l.filter hit = [] := by
        rw [List.filter_cons_of_pos ha, List.length_cons] at hle
        exact List.length_eq_zero.1 (by omega)
      have hnone : ∀ c ∈ l, hit c = false := by
        intro c hc
        by_contra hcon
        have : c ∈ l.filter hit := List.mem_filter.2 ⟨hc, by simpa using hcon⟩
        rw [hnil] at this
        simp at this
      have hid : l.map (fun a => if hit a then set a else a) = l := by
        conv_rhs => rw [← List.map_id l]
        apply List.map_congr_left
        intro c hc
        simp [hnone c hc]
      have hpos : ((a :: l).filter hit).length > 0 := by
        rw [List.filter_cons_of_pos ha]; simp
      simp only [List.map_cons, ha, if_true, hid, hset, List.nodup_cons]
      refine ⟨?_, hnd.2⟩
      intro hmem
      obtain ⟨c, hc, hck⟩ := List.mem_map.1 hmem
      exact hother hpos c (List.mem_cons_of_mem _ hc) (hnone c hc) hck
    · have ha' : hit a = false := by simpa using ha
      have hfil : (a :: l).filter hit = l.filter hit := by
        rw [List.filter_cons_of_neg ha]
      rw [hfil] at hle hother
      have ih' := ih hnd.2 hle
        (fun hp c hc hcf => hother hp c (List.mem_cons_of_mem _ hc) hcf)
      simp only [List.map_cons, ha', Bool.false_eq_true, if_false, List.nodup_cons]
      refine ⟨?_, ih'⟩
      intro hmem
      obtain ⟨b, hb, hbk⟩ := List.mem_map.1 hmem
      obtain ⟨c, hc, rfl⟩ := List.mem_map.1 hb
      by_cases hcm : hit c = true
      · have hp : (l.filter hit).length > 0 :=
          List.length_pos_of_mem (List.mem_filter.2 ⟨hc, hcm⟩)
        simp only [hcm, if_true, hset] at hbk
        exact hother hp a (List.mem_cons_self _ _) ha' hbk.symm
      · have hcm' : hit c = false := by simpa using hcm
        simp only [hcm', Bool.false_eq_true, if_false] at hbk
        exact hnd.1 (List.mem_map.2 ⟨c, hc, hbk⟩)

/-- The category `UPDATE`, when accepted, keeps names and emails unique. -/
theorem updateCategory_unique (s s1 : Store) (name color description id : JVal)
    (rows : List Category) (h : s.unique)
    (hup : updateCategory s name color description id = .ok (s1, rows)) : s1.unique := by
  unfold updateCategory at hup
  split at hup
  · next nm cl dsc i _ _ _ _ =>
    split_ifs at hup with h1
    split at hup
    · next n col _ _ =>
      simp only [] at hup
      split_ifs at hup with h2
      simp only [Except.ok.injEq, Prod.mk.injEq] at hup
      obtain ⟨rfl, _⟩ := hup
      simp only [Bool.or_eq_true, decide_eq_true_eq, Bool.and_eq_true, not_or, not_and,
        not_lt, Bool.not_eq_true, List.any_eq_false, List.mem_filter, beq_iff_eq] at h2
      refine ⟨?_, h.2⟩
      apply nodup_map_update (fun c : Category => c.name) (fun c => sqlEq (some c.id) i)
        _ n (fun _ => rfl) s.categories h.1
      · omega
      · intro hpos c hc hcf
        exact h2.2 hpos c ⟨hc, by simp [hcf]⟩
    · cases hup
  · cases hup

/-- `PUT /categories/:id` keeps names and emails unique. -/
theorem categoriesPut_unique (s : Store) (id : String) (body : JObj) (h : s.unique) :
    (categoriesPut s id body).1.unique := by
  unfold categoriesPut
  simp only []
  split
  · exact h
  · split_ifs
    · exact h
    · split
      · exact h
      · split_ifs
        · exact h
        · split
          · exact h
          · next s1 hup => exact updateCategory_unique s s1 _ _ _ _ _ h hup
          · next s1 row rest hup => exact updateCategory_unique s s1 _ _ _ _ _ h hup

/-- The user `INSERT` keeps names and emails unique, whether it is accepted or not. -/
theorem insertUser_unique (s : Store) (now : Int) (email password role : String)
    (h : s.unique) : (insertUser s now email password role).1.unique := by
  unfold insertUser
  split
  · simp only []
    split_ifs with h1
    · exact h
    · split
      · split_ifs with h2
        · exact Store.unique_of_eq rfl rfl h
        · refine ⟨h.1, ?_⟩
          apply nodup_map_append_singleton _ _ _ h.2
          intro x hx
          simp only [Bool.not_eq_true, List.any_eq_false, Bool.or_eq_true, beq_iff_eq,
            not_or] at h2
          exact (h2 x hx).2
      · exact Store.unique_of_eq rfl rfl h
  · exact h

/-- The user `DELETE`, when accepted, keeps names and emails unique. -/
theorem deleteUsersByEmail_unique (s s1 : Store) (email : String) (h : s.unique)
    (hdel : deleteUsersByEmail s email = .ok s1) : s1.unique := by
  unfold deleteUsersByEmail at hdel
  split at hdel
  · cases hdel
  · simp only [Except.ok.injEq] at hdel
    subst hdel
    exact ⟨h.1, ((List.filter_sublist _).map _).nodup h.2⟩

/-- The example projects touch neither categories nor users. -/
theorem insertExampleProjects_unique (s : Store) (now : Int) (h : s.unique) :
    (insertExampleProjects s now).1.unique := by
  unfold insertExampleProjects
  simp only []
  split_ifs <;> exact Store.unique_of_eq rfl rfl h

/-- The default categories keep names and emails unique, whether accepted or not. -/
theorem insertDefaultCategories_unique (s : Store) (now : Int) (h : s.unique) :
    (insertDefaultCategories s now).1.unique := by
  unfold insertDefaultCategories
  simp only []
  split_ifs with h1
  · exact Store.unique_of_eq rfl rfl h
  · refine ⟨?_, h.2⟩
    simp only [Bool.not_eq_true, List.any_eq_false] at h1
    rw [List.map_append, List.nodup_append]
    refine ⟨h.1, by simp [defaultCategories], ?_⟩
    intro b hb hb'
    obtain ⟨c, hc, rfl⟩ := List.mem_map.1 hb
    obtain ⟨r, hr, hrc⟩ := List.mem_map.1 hb'
    have := h1 c hc r hr
    simp only [Bool.or_eq_false_iff, beq_eq_false_iff_ne, ne_eq] at this
    exact this.2 hrc

/-- `init` keeps names and emails unique, whether it completes or rethrows. -/
theorem init_unique (hash : String → Except String String) (env : Env) (s : Store)
    (tUser tProjects tCategories : Int) (h : s.unique) :
    (init hash env s tUser tProjects tCategories).1.unique := by
  have hadmin : ∀ r : Store × Except String Unit,
      r = (match selectUserIdsByEmail s (adminEmail env) with
          | .error e => (s, .error e)
          | .ok adminExists =>
            if adminExists.length = 0 then
              match hash (adminPassword env) with
              | .error e => (s, .error e)
              | .ok hashedPassword =>
                insertUser s tUser (adminEmail env) hashedPassword "admin"
            else (s, .ok ())) → r.1.unique := by
    intro r hr
    subst hr
    split
    · exact h
    · split_ifs
      · split
        · exact h
        · exact insertUser_unique s tUser _ _ _ h
      · exact h
  unfold init
  simp only []
  split
  · next s1 e heq => exact hadmin _ heq.symm
  · next s1 u heq =>
    have h1 : s1.unique := hadmin _ heq.symm
    have hproj : ∀ r : Store × Except String Unit,
        r = (if s1.projects.length = 0 then insertExampleProjects s1 tProjects
             else (s1, .ok ())) → r.1.unique := by
      intro r hr
      subst hr
      split_ifs
      · exact insertExampleProjects_unique s1 tProjects h1
      · exact h1
    split
    · next s2 e heq2 => exact hproj _ heq2.symm
    · next s2 u2 heq2 =>
      have h2 : s2.unique := hproj _ heq2.symm
      split_ifs
      · exact insertDefaultCategories_unique s2 tCategories h2
      · exact h2

/-- `resetAdminUser` keeps names and emails unique, whether it completes or rethrows. -/
theorem resetAdminUser_unique (hash : String → Except String String) (env : Env) (s : Store)
    (now : Int) (h : s.unique) : (resetAdminUser hash env s now).1.unique := by
  unfold resetAdminUser
  split
  · exact h
  · next s1 hdel =>
    have h1 := deleteUsersByEmail_unique s s1 (adminEmail env) h hdel
    split
    · exact h1
    · next hashed _ =>
      have h2 := insertUser_unique s1 now (adminEmail env) hashed "admin" h1
      split <;> simp_all

/-- SQL inequality of two non-null values. -/
theorem sqlNe_some_some {α : Type} [BEq α] (a b : α) : sqlNe (some a) (some b) = (a != b) := rfl

/-- On an existing id `PUT /categories/:id` answers with its duplicate-name rejection
exactly when a category with another id has the requested name. -/
theorem categoriesPut_duplicate_iff (s : Store) (id : String) (body : JObj) (i : Int)
    (hid : parseInt4 id = some i) (hex : ∃ c ∈ s.categories, c.id = i) :
    (categoriesPut s id body).2 = ⟨400, .message "Ya existe una categoría con ese nombre"⟩ ↔
      ∃ c ∈ s.categories, c.id ≠ i ∧ some c.name = prepareValue (body.field "name") := by
  obtain ⟨c0, hc0, hc0i⟩ := hex
  have hb := bindInt_str id i hid
  have hsel : selectCategoryIds s (.str id)
      = .ok ((s.categories.filter (fun c => c.id == i)).map (fun c => c.id)) := by
    simp [selectCategoryIds, hb, sqlEq_some_some]
  have hlen : ((s.categories.filter (fun c => c.id == i)).map (fun c => c.id)).length ≠ 0 := by
    intro h0
    have : c0 ∈ s.categories.filter (fun c => c.id == i) :=
      List.mem_filter.2 ⟨hc0, by simp [hc0i]⟩
    rw [List.length_map, List.length_eq_zero] at h0
    rw [h0] at this
    simp at this
  have hdup : selectDuplicateCategoryIds s (body.field "name") (.str id)
      = .ok ((s.categories.filter (fun c =>
          sqlEq (some c.name) (prepareValue (body.field "name")) && c.id != i)).map
            (fun c => c.id)) := by
    simp [selectDuplicateCategoryIds, hb, sqlNe_some_some]
  unfold categoriesPut
  simp only [hsel, hlen, if_false, hdup]
  by_cases hpos : ((s.categories.filter (fun c =>
      sqlEq (some c.name) (prepareValue (body.field "name")) && c.id != i)).map
        (fun c => c.id)).length > 0
  · rw [if_pos hpos]
    refine ⟨fun _ => ?_, fun _ => rfl⟩
    rw [List.length_map] at hpos
    obtain ⟨c, hc⟩ := List.exists_mem_of_length_pos hpos
    rw [List.mem_filter, Bool.and_eq_true] at hc
    refine ⟨c, hc.1, by simpa using hc.2.2, ?_⟩
    cases hn : prepareValue (body.field "name") with
    | none => rw [hn] at hc; simp [sqlEq] at hc
    | some n => rw [hn] at hc; simpa [sqlEq_some_some] using hc.2.1
  · rw [if_neg hpos]
    constructor
    · intro h
      exfalso
      revert h
      split
      · simp [internalError]
      · simp
      · simp
    · rintro ⟨c, hc, hci, hcn⟩
      exfalso
      apply hpos
      rw [List.length_map]
      exact List.length_pos_of_mem
        (List.mem_filter.2 ⟨hc, by rw [← hcn]; simp [sqlEq_some_some, hci]⟩)

/-- With a target email and a hash that fit their columns and hold no U+0000, and the
users sequence ahead of the stored ids, `resetAdminUser` returns the credentials and
leaves exactly one user with the target email. -/
theorem resetAdminUser_one_admin (hash : String → Except String String) (env : Env)
    (s : Store) (now : Int) (hashed : String)
    (hhash : hash (adminPassword env) = .ok hashed)
    (hemail : (adminEmail env).length ≤ 255) (hlen : hashed.length ≤ 255)
    (hcleanEmail : hasNul (adminEmail env) = false) (hcleanHash : hasNul hashed = false)
    (hfresh : ∀ u ∈ s.users, u.id ≠ s.usersSeq + 1) :
    (resetAdminUser hash env s now).2 = .ok (adminEmail env, adminPassword env) ∧
    ((resetAdminUser hash env s now).1.users.filter
      (fun u => u.email == adminEmail env)).length = 1 := by
  have hbe : bindText (.str (adminEmail env)) = .ok (some (adminEmail env)) :=
    bindText_some rfl hcleanEmail
  have hbh : bindText (.str hashed) = .ok (some hashed) := bindText_some rfl hcleanHash
  have hbr : bindText (.str "admin") = .ok (some "admin") := by decide
  have ha1 : varcharAccepts 255 (some (adminEmail env)) = true :=
    varcharAccepts_of_fits (by simpa [fitsVarchar] using hemail)
  have ha2 : varcharAccepts 255 (some hashed) = true :=
    varcharAccepts_of_fits (by simpa [fitsVarchar] using hlen)
  have ha3 : varcharAccepts 50 (some "admin") = true := by decide
  have hs1 : varcharStored 255 (some (adminEmail env)) = some (adminEmail env) :=
    varcharStored_of_fits (by simpa [fitsVarchar] using hemail)
  have hs2 : varcharStored 255 (some hashed) = some hashed :=
    varcharStored_of_fits (by simpa [fitsVarchar] using hlen)
  have hdel : deleteUsersByEmail s (adminEmail env) =
      .ok { s with users := s.users.filter (fun u => !(u.email == adminEmail env)) } := by
    simp [deleteUsersByEmail, hbe, sqlEq_some_some]
  have hnone : ∀ x ∈ s.users.filter (fun u => !(u.email == adminEmail env)),
      ¬x.id = s.usersSeq + 1 ∧ ¬x.email = adminEmail env := by
    intro u hu
    simp only [List.mem_filter, Bool.not_eq_true', beq_eq_false_iff_ne] at hu
    exact ⟨hfresh u hu.1, hu.2⟩
  have hfilter : (s.users.filter (fun u => !(u.email == adminEmail env))).filter
      (fun u => u.email == adminEmail env) = [] := by
    rw [List.filter_eq_nil_iff]
    intro u hu
    simp only [List.mem_filter, Bool.not_eq_true', beq_eq_false_iff_ne] at hu
    simpa using hu.2
  have hins : insertUser { s with users := s.users.filter (fun u => !(u.email == adminEmail env)) }
      now (adminEmail env) hashed "admin" =
      ({ s with
          usersSeq := s.usersSeq + 1,
          users := s.users.filter (fun u => !(u.email == adminEmail env)) ++
            [⟨s.usersSeq + 1, adminEmail env, hashed, varcharStored 50 (some "admin"), now⟩] },
       .ok ()) := by
    simpa [insertUser, hbe, hbh, hbr, ha1, ha2, ha3, hs1, hs2] using hnone
  have hres : resetAdminUser hash env s now =
      ({ s with
          usersSeq := s.usersSeq + 1,
          users := s.users.filter (fun u => !(u.email == adminEmail env)) ++
            [⟨s.usersSeq + 1, adminEmail env, hashed, varcharStored 50 (some "admin"), now⟩] },
       .ok (adminEmail env, adminPassword env)) := by
    unfold resetAdminUser
    simp only [hdel, hhash, hins]
  rw [hres]
  refine ⟨rfl, ?_⟩
  simp only [List.filter_append, hfilter]
  simp

/-- C11, as stated, fails in its last particular: with an administrator address of 256
characters, in a store with unique names and emails, `resetAdminUser` rethrows and
leaves no user with the target email. -/
theorem resetAdminUser_leaves_none :
    adminStore.unique ∧
    (resetAdminUser toyHash longEmailEnv adminStore 9).2
      = .error "value too long for type character varying" ∧
    ((resetAdminUser toyHash longEmailEnv adminStore 9).1.users.filter
      (fun u => u.email == adminEmail longEmailEnv)).length = 0 := by
  decide

/-- C11, amended. From a store with unique category names and unique user emails,
category create, update and delete, `init` and `resetAdminUser` each leave a store with
unique names and emails, whether the operation completes or fails. On an existing id the
category update refuses a rename as a duplicate (400) exactly when a category with
another id has the requested name. When the target email and the hash fit their columns
and hold no U+0000 and the users sequence is ahead of the stored ids, `resetAdminUser`
returns the credentials and leaves exactly one user with the target email. -/
theorem uniqueness_invariant :
    (∀ (hash : String → Except String String) (s : Store) (now : Int) (body : JObj)
      (id : String) (env : Env) (tUser tProjects tCategories : Int),
      s.unique →
      (categoriesPost s now body).1.unique ∧ (categoriesPut s id body).1.unique ∧
      (categoriesDelete s id).1.unique ∧
      (init hash env s tUser tProjects tCategories).1.unique ∧
      (resetAdminUser hash env s now).1.unique) ∧
    (∀ (s : Store) (id : String) (body : JObj) (i : Int),
      parseInt4 id = some i → (∃ c ∈ s.categories, c.id = i) →
      ((categoriesPut s id body).2
          = ⟨400, .message "Ya existe una categoría con ese nombre"⟩ ↔
        ∃ c ∈ s.categories, c.id ≠ i ∧ some c.name = prepareValue (body.field "name"))) ∧
    (∀ (hash : String → Except String String) (env : Env) (s : Store) (now : Int)
      (hashed : String),
      hash (adminPassword env) = .ok hashed →
      (adminEmail env).length ≤ 255 → hashed.length ≤ 255 →
      hasNul (adminEmail env) = false → hasNul hashed = false →
      (∀ u ∈ s.users, u.id ≠ s.usersSeq + 1) →
      (resetAdminUser hash env s now).2 = .ok (adminEmail env, adminPassword env) ∧
      ((resetAdminUser hash env s now).1.users.filter
        (fun u => u.email == adminEmail env)).length = 1) := by
  refine ⟨?_, ?_, ?_⟩
  · intro hash s now body id env tUser tProjects tCategories h
    exact ⟨categoriesPost_unique s now body h, categoriesPut_unique s id body h,
      categoriesDelete_unique s id h, init_unique hash env s tUser tProjects tCategories h,
      resetAdminUser_unique hash env s now h⟩
  · intro s id body i hid hex
    exact categoriesPut_duplicate_iff s id body i hid hex
  · intro hash env s now hashed hhash hemail hlen hce hch hfresh
    exact resetAdminUser_one_admin hash env s now hashed hhash hemail hlen hce hch hfresh

/-- C11 on an empty database with a hash that always fails, and on a store with two
categories and the administrator: the five operations, a rename of "Backend" to "Web",
and a reset. -/
theorem uniqueness_invariant_witness :
    ((categoriesPost emptyStore 5 webBody).1.unique ∧
      (categoriesPut emptyStore "2" webBody).1.unique ∧
      (categoriesDelete emptyStore "2").1.unique ∧
      (init (fun _ => .error "no hash") defaultEnv emptyStore 1 2 3).1.unique ∧
      (resetAdminUser (fun _ => .error "no hash") defaultEnv emptyStore 5).1.unique) ∧
    ((categoriesPost portfolioStore 5 webBody).1.unique ∧
      (categoriesPut portfolioStore "2" webBody).1.unique ∧
      (categoriesDelete portfolioStore "2").1.unique ∧
      (init toyHash defaultEnv portfolioStore 1 2 3).1.unique ∧
      (resetAdminUser toyHash defaultEnv portfolioStore 5).1.unique) ∧
    ((categoriesPut portfolioStore "2" webBody).2
        = ⟨400, .message "Ya existe una categoría con ese nombre"⟩ ↔
      ∃ c ∈ portfolioStore.categories,
        c.id ≠ 2 ∧ some c.name = prepareValue (webBody.field "name")) ∧
    ((resetAdminUser toyHash defaultEnv portfolioStore 5).2
        = .ok (adminEmail defaultEnv, adminPassword defaultEnv) ∧
      ((resetAdminUser toyHash defaultEnv portfolioStore 5).1.users.filter
        (fun u => u.email == adminEmail defaultEnv)).length = 1) :=
  ⟨uniqueness_invariant.1 (fun _ => .error "no hash") emptyStore 5 webBody "2" defaultEnv
      1 2 3 (by decide),
   uniqueness_invariant.1 toyHash portfolioStore 5 webBody "2" defaultEnv 1 2 3 (by decide),
   uniqueness_invariant.2.1 portfolioStore "2" webBody 2 (by decide)
     ⟨⟨2, "Backend", "#82E0AA", none, 0⟩, by decide, rfl⟩,
   uniqueness_invariant.2.2 toyHash defaultEnv portfolioStore 5 "hash-of-admin123"
     (by decide) (by decide) (by decide) (by decide) (by decide) (by decide)⟩

end Portfolio
